import Mathlib

/-! Tournament entry form: submission handler, session gate and roster service.

A shallow embedding of `main.js`.  JavaScript strings are lists of characters,
an absent property of a stored document is `none`, the document store is a list
of group documents in insertion order, and each route handler is a function from
the current state and the request to the response and the next state.

Scope of the model:
* a request body of `POST /submit` is any parsed value (`JsVal`); the password of
  a login and the query of the dashboard are strings or absent;
* a character stands for one code unit, and `toLowerCase` maps the letters `A`-`Z`;
* the store is reachable: a save fails only when the schema rejects the document;
* functions of the runtime that the program only calls (date formatting, `String`
  and the schema cast of a non-string value, the case folding of the pattern engine,
  its verdict on patterns with operators) are parameters, in `Lib` and `Config`;
* the static pages `indexHTML()` and `teacherLogin(msg)` are response constructors;
* the one-hour lifetime of the session cookie is not modelled.
-/

namespace CompetitionForm

/-! ## Text -/

/-- JavaScript string, as its sequence of characters. -/
abbrev Str := List Char

/-- Truthiness of a property that is a string or absent: `undefined` and `''` are falsy. -/
def truthy : Option Str → Bool
  | some (_ :: _) => true
  | _ => false

/-- The expression `v || d` for a string-or-absent `v` and a string `d`. -/
def orElse (v : Option Str) (d : Str) : Str :=
  match v with
  | some (c :: cs) => c :: cs
  | _ => d

/-- The call `s.replace(/c/g, r)` for a single character `c`. -/
def replaceAll (c : Char) (r : Str) : Str → Str
  | [] => []
  | x :: xs => if x = c then r ++ replaceAll c r xs else x :: replaceAll c r xs

/-- White space and line terminators, the characters `String.prototype.trim` strips. -/
def isWhiteSpace (c : Char) : Bool :=
  let n := c.toNat
  n = 9 || n = 10 || n = 11 || n = 12 || n = 13 || n = 32 || n = 160 || n = 5760 ||
  (8192 ≤ n && n ≤ 8202) || n = 8232 || n = 8233 || n = 8239 || n = 8287 || n = 12288 ||
  n = 65279

/-- The method `String.prototype.trim`. -/
def trim (s : Str) : Str :=
  ((s.dropWhile isWhiteSpace).reverse.dropWhile isWhiteSpace).reverse

/-- The method `String.prototype.toLowerCase`, on the letters `A` to `Z`. -/
def toLowerCase (s : Str) : Str := s.map Char.toLower

/-- The method `Array.prototype.join`. -/
def join (sep : Str) (parts : List Str) : Str := List.intercalate sep parts

/-- Source line 7: `escapeHtml`, three global replacements in sequence. -/
def escapeHtml (s : Str) : Str :=
  replaceAll '>' "&gt;".data (replaceAll '<' "&lt;".data (replaceAll '&' "&amp;".data s))

/-- Source line 135: `csvSafe`; the default parameter turns `undefined` into `''`. -/
def csvSafe (s : Option Str) : Str :=
  '"' :: (replaceAll '"' ['"', '"'] (s.getD []) ++ ['"'])

/-! ## Values of a request body -/

/-- A value of a parsed request body (JSON or URL-encoded). -/
inductive JsVal where
  /-- The value `undefined`: an absent property. -/
  | undefined
  /-- The value `null`. -/
  | null
  /-- A boolean. -/
  | bool (b : Bool)
  /-- A number, by the 64-bit pattern of the double. -/
  | num (bits : Nat)
  /-- A string. -/
  | str (s : Str)
  /-- An array. -/
  | arr (items : List JsVal)
  /-- An object, by its own properties in order; a name is looked up from the front. -/
  | obj (props : List (Str × JsVal))

/-- Truthiness of a number: the two zeros and the NaNs are falsy. -/
def numTruthy (bits : Nat) : Bool :=
  let magnitude := bits % 2 ^ 63
  decide (magnitude ≠ 0) && decide (magnitude ≤ 0x7FF0000000000000)

/-- Truthiness: `undefined`, `null`, `false`, zero, NaN and `''` are falsy. -/
def JsVal.truthy : JsVal → Bool
  | .undefined => false
  | .null => false
  | .bool b => b
  | .num bits => numTruthy bits
  | .str s => decide (s ≠ [])
  | .arr _ => true
  | .obj _ => true

/-- The expression `v || d`. -/
def JsVal.or (v d : JsVal) : JsVal := if v.truthy then v else d

/-- The first property with the given name; `undefined` when there is none. -/
def lookupProp (key : Str) : List (Str × JsVal) → JsVal
  | [] => .undefined
  | (k, v) :: rest => if k = key then v else lookupProp key rest

/-- The property read `v.key`, for the names the handlers read (`group`, `p1`, `p2`,
`name`, `form`, `year`, `experience`, `past`, `reason`, `fee`, `email`): none of them
is defined on a string, number, boolean or array, so only an object has them.  The
handlers read a property of a truthy value only. -/
def JsVal.get (v : JsVal) (key : String) : JsVal :=
  match v with
  | .obj props => lookupProp key.data props
  | _ => .undefined

/-- The test `v === 's'` against a string literal. -/
def JsVal.isStr (v : JsVal) (s : String) : Bool :=
  match v with
  | .str t => decide (t = s.data)
  | _ => false

/-! ## Data model -/

/-- A member object as built by the handler or read back from the store;
the empty object `{}` has every property absent. -/
structure Member where
  name : Option Str := none
  form : Option Str := none
  year : Option Str := none
  experience : Option Str := none
  past : Option Str := none
  reason : Option Str := none
  feePaid : Option Bool := none
  email : Option Str := none
  deriving DecidableEq, Repr

/-- A stored group document. -/
structure Group where
  id : Str
  members : List Member
  groupFeePaid : Option Bool
  createdAt : Option Nat
  deriving DecidableEq, Repr

/-- The document store: the `Group` collection. -/
abbrev Store := List Group

/-- Truthiness of a boolean-or-absent property. -/
def truthyB : Option Bool → Bool
  | some true => true
  | _ => false

/-- Runtime functions the program calls and does not define. -/
structure Lib where
  /-- Case folding applied by the pattern engine under the `i` flag. -/
  canonicalize : Char → Char
  /-- The method `Date.prototype.toISOString`, on a millisecond timestamp. -/
  toISOString : Nat → Str
  /-- The method `Date.prototype.toLocaleString`, on a millisecond timestamp. -/
  toLocaleString : Nat → Str
  /-- The conversion `String(v)` of a value that is not a string. -/
  stringOf : JsVal → Str
  /-- The cast of a value that is not a string to the schema type `String`; `none`
  is a cast error. -/
  castString : JsVal → Option Str

/-- A library instance with folding over the letters `a` to `z` and decimal timestamps;
it converts every non-string value to the empty text and casts none of them. -/
def asciiLib : Lib where
  canonicalize := Char.toUpper
  toISOString := fun t => (toString t).data
  toLocaleString := fun t => (toString t).data
  stringOf := fun _ => []
  castString := fun _ => none

/-- What a handler sends back. -/
inductive Response where
  /-- The call `res.status(status).json({ok, message, id})`. -/
  | json (status : Nat) (ok : Bool) (message : Option Str) (id : Option Str)
  /-- The call `res.status(status).send(body)` with a plain string. -/
  | text (status : Nat) (body : Str)
  /-- The call `res.redirect(location)`. -/
  | redirect (location : Str)
  /-- The page of `indexHTML()`. -/
  | indexPage
  /-- The page of `teacherLogin(msg)`. -/
  | loginPage (msg : Str)
  /-- An HTML page sent with status 200. -/
  | html (body : Str)
  /-- The CSV attachment sent with status 200. -/
  | csv (body : Str)
  deriving DecidableEq, Repr

/-! ## Submission handler -/

/-- An exception thrown while a handler runs. -/
inductive JsError where
  /-- A `TypeError`, such as calling a method a value does not have. -/
  | typeError
  deriving DecidableEq, Repr

deriving instance DecidableEq for Except

/-- Source lines 55-57: the normal form of the text `String(raw)`. -/
def normalizeText (text : Str) : Option Str :=
  let local_ := toLowerCase (trim text)
  if local_ = [] then some []
  else some (local_ ++ "@arkvictoria.org".data)

/-- Source lines 52-58: `normalizeEmail`.  `.ok none` is the `null` it returns for
an `@`.  The call `raw.includes('@')` is the substring test on a string and the
element test on an array; a truthy number, boolean or object has no such method and
the call throws. -/
def normalizeEmail (lib : Lib) (raw : JsVal) : Except JsError (Option Str) :=
  if !raw.truthy then .ok (some [])
  else
    match raw with
    | .str s => if '@' ∈ s then .ok none else .ok (normalizeText s)
    | .arr items =>
      if items.any (·.isStr "@") then .ok none else .ok (normalizeText (lib.stringOf raw))
    | _ => .error .typeError

/-- Source lines 69-70: a member object as the handler builds it, before the schema
is applied. -/
structure MemberDraft where
  name : JsVal
  form : JsVal
  year : JsVal
  experience : JsVal
  past : JsVal
  reason : JsVal
  feePaid : Bool
  email : Str

/-- The cast of a value to the schema type `String`: a string is kept. -/
def castString (lib : Lib) (v : JsVal) : Option Str :=
  match v with
  | .str s => some s
  | other => lib.castString other

/-- Schema validation of one member on save: `name` is required and `past` is
one of the enumerated values. -/
def validMember (m : Member) : Bool :=
  truthy m.name &&
  (match m.past with
   | none => true
   | some v => decide (v = "yes".data) || decide (v = "no".data))

/-- The schema applied to one member on save: the six text paths are cast to
`String`, then the member is validated; `none` is a cast or validation error. -/
def castMember (lib : Lib) (d : MemberDraft) : Option Member :=
  match castString lib d.name, castString lib d.form, castString lib d.year,
      castString lib d.experience, castString lib d.past, castString lib d.reason with
  | some name, some form, some year, some experience, some past, some reason =>
    let m : Member :=
      { name := some name, form := some form, year := some year,
        experience := some experience, past := some past, reason := some reason,
        feePaid := some d.feePaid, email := some d.email }
    if validMember m then some m else none
  | _, _, _, _, _, _ => none

/-- What the store assigns when a document is created. -/
structure SaveEnv where
  /-- The fresh identifier of the new document. -/
  newId : Str
  /-- The clock reading `Date.now()`. -/
  now : Nat

/-- The schema applied to the `members` array: every member is cast and validated. -/
def castMembers (lib : Lib) : List MemberDraft → Option (List Member)
  | [] => some []
  | d :: ds =>
    match castMember lib d, castMembers lib ds with
    | some m, some ms => some (m :: ms)
    | _, _ => none

/-- The calls `new Group({members, groupFeePaid})` and `g.save()`: the members are
cast and validated against the schema and the document is appended; `none` is a
rejected save. -/
def save (lib : Lib) (env : SaveEnv) (store : Store) (members : List MemberDraft)
    (groupFeePaid : Bool) : Option (Group × Store) :=
  match castMembers lib members with
  | some ms =>
    let g : Group :=
      { id := env.newId, members := ms, groupFeePaid := some groupFeePaid,
        createdAt := some env.now }
    some (g, store ++ [g])
  | none => none

/-- The 400 answer of the submission handler. -/
def reject (message : String) : Response :=
  .json 400 false (some message.data) none

/-- Source lines 76-78: the answer of the `catch` block. -/
def serverError : Response :=
  .json 500 false (some "Server error".data) none

/-- Source lines 69-70: the member object built from a payload sub-record. -/
def memberOf (p : JsVal) (paid : Bool) (email : Str) : MemberDraft :=
  { name := p.get "name", form := (p.get "form").or (.str []),
    year := (p.get "year").or (.str []),
    experience := (p.get "experience").or (.str []),
    past := (p.get "past").or (.str "no".data),
    reason := (p.get "reason").or (.str []), feePaid := paid, email := email }

/-- Source lines 45-80: the handler of `POST /submit`. -/
def submit (lib : Lib) (env : SaveEnv) (store : Store) (body : JsVal) : Response × Store :=
  let b := body.or (.obj [])
  let group := b.get "group"
  let p1 := b.get "p1"
  let p2 := b.get "p2"
  if !p1.truthy || !(p1.get "name").truthy then (reject "Missing Player 1 name", store)
  else if !group.isStr "yes" then (reject "Please come back with a group.", store)
  else if !p2.truthy || !(p2.get "name").truthy then
    (reject "Group entries must include both members.", store)
  else
    match normalizeEmail lib ((p1.get "email").or (.str [])) with
    | .error _ => (serverError, store)
    | .ok p1email =>
      match normalizeEmail lib ((p2.get "email").or (.str [])) with
      | .error _ => (serverError, store)
      | .ok p2email =>
        match p1email, p2email with
        | some e1, some e2 =>
          let p1Paid := (p1.get "fee").isStr "yes"
          let p2Paid := (p2.get "fee").isStr "yes"
          if !(p1Paid || p2Paid) then
            (reject "Please go to Mr Smith (M22) To find out more. You cannot join.", store)
          else
            let members := [memberOf p1 p1Paid e1, memberOf p2 p2Paid e2]
            match save lib env store members (members.any fun m => m.feePaid) with
            | some (g, store') => (.json 200 true none (some g.id), store')
            | none => (serverError, store)
        | _, _ => (reject "Do not include @ in email", store)

/-! ## Session gate -/

/-- Source line 12: `process.env.TEACHER_PASS || 'Arkvic'`. -/
def TEACHER_PASS (envPass : Option Str) : Str := orElse envPass "Arkvic".data

/-- Source lines 90-92: the test of `POST /teacher/login`, on the submitted password. -/
def passwordAccepted (envPass : Option Str) (password : Option Str) : Bool :=
  truthy (some (TEACHER_PASS envPass)) && decide (orElse password [] = TEACHER_PASS envPass)

/-! ## Roster service -/

/-- The expression `g.members[i] || {}`. -/
def memberAt (g : Group) (i : Nat) : Member := (g.members.get? i).getD {}

/-- The expression `b ? 'yes' : 'no'`. -/
def yesNo (b : Option Bool) : Str := if truthyB b then "yes".data else "no".data

/-- Sort key of `createdAt`: an absent date sorts below every date. -/
def sortKey (g : Group) : Nat :=
  match g.createdAt with
  | none => 0
  | some t => t + 1

/-- The cursor call `.sort({createdAt:-1})`: newest first. -/
def sortNewestFirst (groups : List Group) : List Group :=
  groups.insertionSort (fun a b => sortKey b ≤ sortKey a)

/-- The call `Group.deleteOne({_id:id})`: removes the first document with that identifier. -/
def deleteOne (id : Str) : Store → Store
  | [] => []
  | g :: gs => if g.id = id then gs else g :: deleteOne id gs

/-- Source line 123: the header row. -/
def csvHeaderCells : List Str :=
  [ "First Name".data, "First Year".data, "First Form".data, "First Email".data,
    "First FeePaid".data, "First PlayedBefore".data, "Second Name".data, "Second Year".data,
    "Second Form".data, "Second Email".data, "Second FeePaid".data,
    "Second PlayedBefore".data, "GroupFeePaid".data, "CreatedAt".data ]

/-- Source line 127: the array of values of one group, before `csvSafe`. -/
def csvCells (lib : Lib) (g : Group) : List (Option Str) :=
  let m1 := memberAt g 0
  let m2 := memberAt g 1
  [ m1.name, m1.year, m1.form, m1.email, some (yesNo m1.feePaid), m1.past,
    m2.name, m2.year, m2.form, m2.email, some (yesNo m2.feePaid), m2.past,
    some (yesNo g.groupFeePaid),
    some (match g.createdAt with
          | some t => lib.toISOString t
          | none => []) ]

/-- The fourteen field values of one record: the cells, with `undefined` read as `''`
the way the default parameter of `csvSafe` reads it. -/
def csvValues (lib : Lib) (g : Group) : List Str :=
  (csvCells lib g).map (·.getD [])

/-- Source line 127: one record, `[...].map(csvSafe).join(',')`. -/
def csvLine (lib : Lib) (g : Group) : Str :=
  join [','] ((csvCells lib g).map csvSafe)

/-- Source lines 121-132: the body of `GET /teacher/export.csv`. -/
def exportCsv (lib : Lib) (store : Store) : Str :=
  join ['\n'] (join [','] csvHeaderCells :: (sortNewestFirst store).map (csvLine lib))

/-- The fourteen characters of the class `[.*+?^${}()|[\]\\]`. -/
def syntaxChars : List Char :=
  ['.', '*', '+', '?', '^', '$', '{', '}', '(', ')', '|', '[', ']', '\\']

/-- Source line 111: `q.replace(/[.*+?^${}()|[\]\\]/g,'\\$&')`. -/
def escapeRegex : Str → Str
  | [] => []
  | c :: cs => if c ∈ syntaxChars then '\\' :: c :: escapeRegex cs else c :: escapeRegex cs

/-- The literal fragment of the pattern language: a pattern that is a sequence of
ordinary characters and backslash-escaped syntax characters denotes that sequence
of characters; `none` for every other pattern (an operator, class, group, anchor,
another escape, or a dangling backslash). -/
def parsePattern : Str → Option (List Char)
  | [] => some []
  | c :: rest =>
    if c = '\\' then
      match rest with
      | [] => none
      | d :: rest' => if d ∈ syntaxChars then (parsePattern rest').map (d :: ·) else none
    else if c ∈ syntaxChars then none
    else (parsePattern rest).map (c :: ·)

/-- Match of a literal sequence at the start of the subject, characters compared
after case folding. -/
def matchHere (fold : Char → Char) : List Char → Str → Bool
  | [], _ => true
  | _ :: _, [] => false
  | c :: cs, x :: xs => decide (fold c = fold x) && matchHere fold cs xs

/-- Unanchored search of a literal sequence: a match at some position of the subject. -/
def search (fold : Char → Char) (lits : List Char) : Str → Bool
  | [] => matchHere fold lits []
  | x :: xs => matchHere fold lits (x :: xs) || search fold lits xs

/-- A pattern compiled with the `i` flag, tested against a subject.  `other` is the
verdict of the engine on a pattern outside the literal fragment. -/
def regexTest (lib : Lib) (other : Str → Str → Bool) (source : Str) (subject : Str) : Bool :=
  match parsePattern source with
  | some lits => search lib.canonicalize lits subject
  | none => other source subject

/-- A query condition `{'members.<field>': rx}`: some member has the field, a string
that the pattern matches. -/
def anyMember (test : Str → Bool) (field : Member → Option Str) (g : Group) : Bool :=
  g.members.any fun m =>
    match field m with
    | some s => test s
    | none => false

/-- Source line 112: the `$or` filter over name, form, year and email. -/
def matchesFilter (test : Str → Bool) (g : Group) : Bool :=
  anyMember test (·.name) g || anyMember test (·.form) g ||
  anyMember test (·.year) g || anyMember test (·.email) g

/-- Source lines 108-114: the groups the dashboard lists for the query parameter `q`. -/
def dashboardGroups (lib : Lib) (other : Str → Str → Bool) (store : Store)
    (q : Option Str) : List Group :=
  let q := trim (orElse q [])
  if q = [] then sortNewestFirst store
  else sortNewestFirst (store.filter (matchesFilter (regexTest lib other (escapeRegex q))))

/-- The text `m2.name ? ('/ ' + s) : ''`. -/
def second (m2 : Member) (s : Str) : Str :=
  if truthy m2.name then "/ ".data ++ s else []

/-- Source lines 240-252: the template pieces of one table row, in order. -/
def dashboardRowParts (lib : Lib) (g : Group) : List Str :=
  let m1 := memberAt g 0
  let m2 := memberAt g 1
  [ "<tr>\n<td>".data, escapeHtml (orElse m1.name []),
    "</td>\n<td>".data, escapeHtml (orElse m2.name []),
    "</td>\n<td>".data, escapeHtml (orElse m1.year []), " ".data,
    second m2 (escapeHtml (orElse m2.year [])),
    "</td>\n<td>".data, escapeHtml (orElse m1.form []), " ".data,
    second m2 (escapeHtml (orElse m2.form [])),
    "</td>\n<td>".data, escapeHtml (orElse m1.experience []), " ".data,
    second m2 (escapeHtml (orElse m2.experience [])),
    "</td>\n<td>".data, escapeHtml (orElse m1.past []), " ".data,
    second m2 (escapeHtml (orElse m2.past [])),
    "</td>\n<td>".data, escapeHtml (orElse m1.email []), " ".data,
    second m2 (escapeHtml (orElse m2.email [])),
    "</td>\n<td>".data, yesNo m1.feePaid, " ".data, second m2 (yesNo m2.feePaid),
    "</td>\n<td>".data, yesNo g.groupFeePaid,
    "</td>\n<td>".data,
    (match g.createdAt with
     | some t => lib.toLocaleString t
     | none => []),
    "</td>\n<td><form method=\"post\" action=\"/teacher/delete/".data, g.id,
    "\" onsubmit=\"return confirm('Delete this group?');\"><button class=\"btn\" style=\"background:#c0392b;\">🗑️</button></form></td>\n</tr>".data ]

/-- Source lines 240-252: one table row. -/
def dashboardRow (lib : Lib) (g : Group) : Str := (dashboardRowParts lib g).flatten

/-- Source lines 255-257: the page from its start up to the search box; `count` is
`groups.length`. -/
def dashboardHead (count : Nat) : Str :=
  "<!doctype html><html><head><meta charset=\"utf-8\"/><meta name=\"viewport\" content=\"width=device-width,initial-scale=1\"/><title>Teacher Dashboard</title><style>body\x7bbackground:#061a33;color:#e8f4ff;font-family:Inter,Arial;margin:0\x7dheader\x7bpadding:16px;background:#02132a;display:flex;align-items:center;justify-content:space-between\x7dinput\x7bpadding:8px;border-radius:6px;border:none;background:rgba(255,255,255,0.08);color:white\x7dtable\x7bwidth:100%;border-collapse:collapse;margin-top:12px\x7dth,td\x7bpadding:8px;border-bottom:1px solid rgba(255,255,255,0.05);text-align:left;font-size:13px\x7da.btn,button.btn\x7bdisplay:inline-block;padding:8px 10px;background:#1e90ff;color:white;border-radius:8px;text-decoration:none;border:none;cursor:pointer\x7d</style></head><body>\n<header><div><h2>Teacher Dashboard</h2><div style=\"color:#9fb3d9\">".data
  ++ (toString count).data
  ++ " groups</div></div>\n<div><form method=\"get\" action=\"/teacher/dashboard\" style=\"display:inline\"><input name=\"q\" placeholder=\"search name/form/year/email\" ".data

/-- Source lines 257-260: the page after the search box; `rows` are the joined table
rows. -/
def dashboardTail (rows : Str) : Str :=
  "</form>\n<a class=\"btn\" href=\"/teacher/export.csv\">Export CSV</a> <a class=\"btn\" href=\"/teacher/logout\">Logout</a></div></header>\n<div style=\"margin-top:12px;overflow:auto\"><table><thead><tr><th>First</th><th>Second</th><th>Year</th><th>Form</th><th>Exp</th><th>Played Before</th><th>Email</th><th>Fee(each)</th><th>GroupFee</th><th>Created</th><th>Delete</th></tr></thead><tbody>".data
  ++ rows
  ++ "</tbody></table></div>\n</body></html>".data

/-- Source lines 236-261: `teacherDashboard(groups, q)`. -/
def teacherDashboard (lib : Lib) (groups : List Group) (q : Str) : Str :=
  let rows := join ['\n'] (groups.map (dashboardRow lib))
  dashboardHead groups.length
  ++ ("value=\"".data ++ escapeHtml q ++ "\" />".data)
  ++ dashboardTail rows

/-! ## Routes -/

/-- Deployment configuration and runtime. -/
structure Config where
  /-- Runtime functions. -/
  lib : Lib
  /-- Verdict of the pattern engine outside the literal fragment. -/
  other : Str → Str → Bool
  /-- The environment variable `TEACHER_PASS`. -/
  teacherPassEnv : Option Str

/-- One request of a session. -/
inductive Request where
  /-- The route `GET /`. -/
  | index
  /-- The route `POST /submit`, with what the store assigns on creation. -/
  | submit (env : SaveEnv) (body : JsVal)
  /-- The route `GET /teacher`. -/
  | teacher
  /-- The route `POST /teacher/login`. -/
  | login (password : Option Str)
  /-- The route `GET /teacher/logout`. -/
  | logout
  /-- The route `POST /teacher/delete/:id`. -/
  | delete (id : Str)
  /-- The route `GET /teacher/dashboard`. -/
  | dashboard (q : Option Str)
  /-- The route `GET /teacher/export.csv`. -/
  | exportCsv

/-- The state a request sees: the session flag and the document store. -/
structure State where
  /-- The flag `req.session.authenticated`. -/
  authenticated : Bool
  /-- The `Group` collection. -/
  store : Store

/-- Source lines 43-133: the route handlers, as one step on the state. -/
def step (cfg : Config) (st : State) : Request → Response × State
  | .index => (.indexPage, st)
  | .submit env body =>
    let r := submit cfg.lib env st.store body
    (r.1, { st with store := r.2 })
  | .teacher =>
    if st.authenticated then (.redirect "/teacher/dashboard".data, st)
    else (.loginPage [], st)
  | .login password =>
    if passwordAccepted cfg.teacherPassEnv password then
      (.redirect "/teacher/dashboard".data, { st with authenticated := true })
    else (.loginPage "Incorrect password".data, st)
  | .logout => (.redirect "/teacher".data, { st with authenticated := false })
  | .delete id =>
    if !st.authenticated then (.text 401 "Unauthorized".data, st)
    else (.redirect "/teacher/dashboard".data, { st with store := deleteOne id st.store })
  | .dashboard q =>
    if !st.authenticated then (.redirect "/teacher".data, st)
    else
      (.html (teacherDashboard cfg.lib (dashboardGroups cfg.lib cfg.other st.store q)
        (trim (orElse q []))), st)
  | .exportCsv =>
    if !st.authenticated then (.text 401 "Unauthorized".data, st)
    else (.csv (exportCsv cfg.lib st.store), st)

/-- A sequence of requests of one session, from a given state: the state reached. -/
def run (cfg : Config) (st : State) : List Request → State
  | [] => st
  | r :: rs => run cfg (step cfg st r).2 rs

/-! ## Reference definitions

The properties below compare the handlers with these definitions, which follow the
wording of the specification and not the code. -/

/-- Whether a value is a string that contains the character `@`. -/
def containsAt (v : JsVal) : Bool :=
  match v with
  | .str s => decide ('@' ∈ s)
  | _ => false

/-- Whether a value is absent or a string. -/
def textOrAbsent (v : JsVal) : Bool :=
  match v with
  | .undefined => true
  | .str _ => true
  | _ => false

/-- Absent or empty: `undefined`, `null`, `false`, zero or the empty string. -/
def missing (v : JsVal) : Bool := !v.truthy

/-- Reference for the validation order: the message of the first rule that fails,
`none` when all five rules pass. -/
def firstFailingRule (body : JsVal) : Option String :=
  let p1 := body.get "p1"
  let p2 := body.get "p2"
  if missing p1 ∨ missing (p1.get "name") then some "Missing Player 1 name"
  else if (body.get "group").isStr "yes" = false then some "Please come back with a group."
  else if missing p2 ∨ missing (p2.get "name") then
    some "Group entries must include both members."
  else if containsAt (p1.get "email") ∨ containsAt (p2.get "email") then
    some "Do not include @ in email"
  else if ¬ ((p1.get "fee").isStr "yes" ∨ (p2.get "fee").isStr "yes") then
    some "Please go to Mr Smith (M22) To find out more. You cannot join."
  else none

/-- An optional text as a property value. -/
def ofText : Option Str → JsVal
  | none => .undefined
  | some s => .str s

/-- The text properties of a payload sub-record in which each of them is a string or
absent. -/
structure Person where
  name : Option Str := none
  form : Option Str := none
  year : Option Str := none
  experience : Option Str := none
  past : Option Str := none
  reason : Option Str := none
  email : Option Str := none
  deriving DecidableEq, Repr

/-- The sub-record `v` has exactly the text properties `p`: each of name, form,
year, experience, past, reason and email is the string given or absent.  Nothing
is said of `fee` or of other properties. -/
def Person.reads (p : Person) (v : JsVal) : Prop :=
  v.get "name" = ofText p.name ∧ v.get "form" = ofText p.form ∧
  v.get "year" = ofText p.year ∧ v.get "experience" = ofText p.experience ∧
  v.get "past" = ofText p.past ∧ v.get "reason" = ofText p.reason ∧
  v.get "email" = ofText p.email

/-- The columns of one member in an export record, in header order: name, year,
form, email, fee paid as `yes` or `no`, played before; an absent text is empty. -/
def memberColumns (m : Member) : List Str :=
  [ m.name.getD [], m.year.getD [], m.form.getD [], m.email.getD [],
    if m.feePaid = some true then "yes".data else "no".data, m.past.getD [] ]

/-- Reference for one export record: the columns of the first member, those of the
second member (an absent member has every property absent), the group fee as `yes`
or `no`, and the creation time in ISO format or empty. -/
def referenceRecord (lib : Lib) (g : Group) : List Str :=
  memberColumns (g.members.head?.getD {}) ++
  memberColumns ((g.members.drop 1).head?.getD {}) ++
  [ if g.groupFeePaid = some true then "yes".data else "no".data,
    (g.createdAt.map lib.toISOString).getD [] ]

/-- Reading position of the reference CSV parser. -/
inductive CsvMode where
  /-- At the start of a field. -/
  | fieldStart
  /-- Inside an unquoted field. -/
  | bare
  /-- Inside a quoted field. -/
  | quoted
  /-- After a double quote met inside a quoted field. -/
  | quoteSeen
  /-- Malformed input. -/
  | error
  deriving DecidableEq, Repr

/-- State of the reference CSV parser; `field`, `record` and `records` are reversed. -/
structure CsvState where
  mode : CsvMode
  field : Str
  record : List Str
  records : List (List Str)
  deriving DecidableEq, Repr

/-- The current field is complete and another field of the same record follows. -/
def CsvState.endField (s : CsvState) : CsvState :=
  { s with mode := .fieldStart, field := [], record := s.field.reverse :: s.record }

/-- The current field and the current record are complete. -/
def CsvState.endRecord (s : CsvState) : CsvState :=
  { mode := .fieldStart, field := [], record := [],
    records := (s.field.reverse :: s.record).reverse :: s.records }

/-- One character of input: fields are separated by commas and records by line
feeds; a field that starts with a double quote runs to the next double quote that
is not doubled, and a doubled double quote inside it stands for one. -/
def csvStep (s : CsvState) (c : Char) : CsvState :=
  match s.mode with
  | .fieldStart =>
    if c = '"' then { s with mode := .quoted }
    else if c = ',' then s.endField
    else if c = '\n' then s.endRecord
    else { s with mode := .bare, field := [c] }
  | .bare =>
    if c = ',' then s.endField
    else if c = '\n' then s.endRecord
    else if c = '"' then { s with mode := .error }
    else { s with field := c :: s.field }
  | .quoted =>
    if c = '"' then { s with mode := .quoteSeen }
    else { s with field := c :: s.field }
  | .quoteSeen =>
    if c = '"' then { s with mode := .quoted, field := '"' :: s.field }
    else if c = ',' then s.endField
    else if c = '\n' then s.endRecord
    else { s with mode := .error }
  | .error => s

/-- Reference quoted-CSV parser: the records of a text, each a list of field values;
`none` for malformed text. -/
def csvParse (text : Str) : Option (List (List Str)) :=
  let s := text.foldl csvStep { mode := .fieldStart, field := [], record := [], records := [] }
  match s.mode with
  | .error => none
  | .quoted => none
  | .fieldStart => if s.record = [] then some s.records.reverse else some s.endRecord.records.reverse
  | .bare => some s.endRecord.records.reverse
  | .quoteSeen => some s.endRecord.records.reverse

/-- Reference for the search: the query occurs in the text as a contiguous run of
characters, both compared after case folding. -/
def occursIn (fold : Char → Char) (q : Str) (s : Str) : Bool :=
  decide (q.map fold <:+: s.map fold)

/-- Reference for the search: the query occurs in the name, form, year or email of
some member of the group. -/
def referenceMatch (fold : Char → Char) (q : Str) (g : Group) : Bool :=
  g.members.any fun m =>
    [m.name, m.form, m.year, m.email].any fun f =>
      match f with
      | some s => occursIn fold q s
      | none => false

/-- Reference for the dashboard listing: all groups for an empty trimmed query,
else the groups the query occurs in; newest first. -/
def referenceListing (lib : Lib) (store : Store) (q : Option Str) : List Group :=
  let t := trim (q.getD [])
  if t = [] then sortNewestFirst store
  else sortNewestFirst (store.filter (referenceMatch lib.canonicalize t))

/-- Reference decoder of the three entities `&amp;`, `&lt;` and `&gt;`. -/
def decodeHtml : Str → Str
  | [] => []
  | '&' :: 'a' :: 'm' :: 'p' :: ';' :: rest => '&' :: decodeHtml rest
  | '&' :: 'l' :: 't' :: ';' :: rest => '<' :: decodeHtml rest
  | '&' :: 'g' :: 't' :: ';' :: rest => '>' :: decodeHtml rest
  | c :: rest => c :: decodeHtml rest

/-! ## Helper lemmas: truthiness and defaults -/

theorem truthy_eq_true_iff (v : Option Str) :
    truthy v = true ↔ ∃ c cs, v = some (c :: cs) := by
  cases v with
  | none => simp [truthy]
  | some s => cases s <;> simp [truthy]

theorem orElse_some_nil (s : Str) : orElse (some s) [] = s := by
  cases s <;> rfl

theorem get_or_obj (body : JsVal) (key : String) :
    (body.or (.obj [])).get key = body.get key := by
  unfold JsVal.or
  cases h : body.truthy
  · cases body <;> simp_all [JsVal.truthy, JsVal.get, lookupProp]
  · simp

theorem or_str_of_text (t : Option Str) :
    (ofText t).or (.str []) = .str (t.getD []) := by
  rcases t with _ | _ | ⟨c, cs⟩ <;> simp [ofText, JsVal.or, JsVal.truthy]

theorem textOrAbsent_iff (v : JsVal) : textOrAbsent v = true ↔ ∃ t, v = ofText t := by
  constructor
  · intro h
    cases v with
    | undefined => exact ⟨none, rfl⟩
    | str s => exact ⟨some s, rfl⟩
    | null => simp [textOrAbsent] at h
    | bool b => simp [textOrAbsent] at h
    | num n => simp [textOrAbsent] at h
    | arr a => simp [textOrAbsent] at h
    | obj o => simp [textOrAbsent] at h
  · rintro ⟨t, rfl⟩
    cases t <;> rfl

theorem normalizeEmail_str (lib : Lib) (s : Str) :
    normalizeEmail lib (.str s)
      = .ok (if s = [] then some [] else if '@' ∈ s then none else normalizeText s) := by
  unfold normalizeEmail
  by_cases h : s = []
  · simp [h, JsVal.truthy]
  · simp [h, JsVal.truthy]
    split <;> rfl

theorem containsAt_ofText (t : Option Str) :
    containsAt (ofText t) = decide ('@' ∈ t.getD []) := by
  cases t <;> simp [ofText, containsAt]

theorem normalizeEmail_of_containsAt (lib : Lib) (v : JsVal) (ht : textOrAbsent v = true)
    (h : containsAt v = true) : normalizeEmail lib (v.or (.str [])) = .ok none := by
  obtain ⟨t, rfl⟩ := (textOrAbsent_iff v).1 ht
  rw [containsAt_ofText] at h
  have h' : '@' ∈ t.getD [] := by simpa using h
  have hne : t.getD [] ≠ [] := by
    intro h0
    rw [h0] at h'
    cases h'
  rw [or_str_of_text, normalizeEmail_str]
  simp [hne, h']

theorem normalizeText_isSome (s : Str) : ∃ e, normalizeText s = some e := by
  unfold normalizeText
  dsimp only
  split <;> exact ⟨_, rfl⟩

theorem normalizeEmail_of_not_containsAt (lib : Lib) (v : JsVal)
    (ht : textOrAbsent v = true) (h : containsAt v = false) :
    ∃ e, normalizeEmail lib (v.or (.str [])) = .ok (some e) := by
  obtain ⟨t, rfl⟩ := (textOrAbsent_iff v).1 ht
  rw [containsAt_ofText] at h
  have h' : '@' ∉ t.getD [] := by simpa using h
  rw [or_str_of_text, normalizeEmail_str]
  by_cases h0 : t.getD [] = []
  · exact ⟨[], by simp [h0]⟩
  · obtain ⟨e, he⟩ := normalizeText_isSome (t.getD [])
    exact ⟨e, by simp [h0, h', he]⟩

/-- The handler agrees with the reference validation order: on every payload for the
first three rules, and for the email and fee rules when both emails are strings or
absent. -/
theorem submit_eq_of_firstFailingRule (lib : Lib) (env : SaveEnv) (store : Store)
    (body : JsVal) (msg : String) (h : firstFailingRule body = some msg)
    (hty : (textOrAbsent ((body.get "p1").get "email") = true ∧
            textOrAbsent ((body.get "p2").get "email") = true) ∨
      msg = "Missing Player 1 name" ∨ msg = "Please come back with a group." ∨
      msg = "Group entries must include both members.") :
    submit lib env store body = (.json 400 false (some msg.data) none, store) := by
  unfold firstFailingRule at h
  unfold submit
  simp only [get_or_obj]
  simp only [missing] at h
  cases h1 : (body.get "p1").truthy
  · simp [h1] at h
    subst h
    simp [h1, reject]
  cases h1n : ((body.get "p1").get "name").truthy
  · simp [h1, h1n] at h
    subst h
    simp [h1, h1n, reject]
  cases hg : (body.get "group").isStr "yes"
  · simp [h1, h1n, hg] at h
    subst h
    simp [h1, h1n, hg, reject]
  cases h2 : (body.get "p2").truthy
  · simp [h1, h1n, hg, h2] at h
    subst h
    simp [h1, h1n, hg, h2, reject]
  cases h2n : ((body.get "p2").get "name").truthy
  · simp [h1, h1n, hg, h2, h2n] at h
    subst h
    simp [h1, h1n, hg, h2, h2n, reject]
  simp only [h1, h1n, hg, h2, h2n, Bool.not_true, Bool.false_eq_true, or_self, if_false,
    Bool.true_eq_false, Bool.or_self] at h ⊢
  have hty' : textOrAbsent ((body.get "p1").get "email") = true ∧
      textOrAbsent ((body.get "p2").get "email") = true := by
    rcases hty with hty | hty | hty | hty
    · exact hty
    all_goals
      subst hty
      split_ifs at h <;> simp at h
  obtain ⟨t1, t2⟩ := hty'
  cases c1 : containsAt ((body.get "p1").get "email")
  · obtain ⟨e1, he1⟩ := normalizeEmail_of_not_containsAt lib _ t1 c1
    cases c2 : containsAt ((body.get "p2").get "email")
    · obtain ⟨e2, he2⟩ := normalizeEmail_of_not_containsAt lib _ t2 c2
      cases f1 : ((body.get "p1").get "fee").isStr "yes"
      · cases f2 : ((body.get "p2").get "fee").isStr "yes"
        · simp [c1, c2, f1, f2] at h
          subst h
          simp [he1, he2, f1, f2, reject]
        · simp [c1, c2, f1, f2] at h
      · simp [c1, c2, f1] at h
    · simp [c1, c2] at h
      subst h
      simp [he1, normalizeEmail_of_containsAt lib _ t2 c2, reject]
  · simp [c1] at h
    subst h
    rw [normalizeEmail_of_containsAt lib _ t1 c1]
    cases c2 : containsAt ((body.get "p2").get "email")
    · obtain ⟨e2, he2⟩ := normalizeEmail_of_not_containsAt lib _ t2 c2
      simp [he2, reject]
    · simp [normalizeEmail_of_containsAt lib _ t2 c2, reject]

/-- C1, refuted as stated: both players are named, the group flag is `yes`, no fee is
`yes` and the first email is the number 5.  No email contains `@`, so the first rule
that fails is the fee rule; the handler throws at `raw.includes` and answers 500
`Server error`. -/
theorem submit_number_email :
    firstFailingRule
        (.obj [("group".data, .str "yes".data),
               ("p1".data, .obj [("name".data, .str "A".data),
                                 ("email".data, .num 0x4014000000000000)]),
               ("p2".data, .obj [("name".data, .str "B".data)])])
      = some "Please go to Mr Smith (M22) To find out more. You cannot join." ∧
    submit asciiLib ⟨"id1".data, 1⟩ []
        (.obj [("group".data, .str "yes".data),
               ("p1".data, .obj [("name".data, .str "A".data),
                                 ("email".data, .num 0x4014000000000000)]),
               ("p2".data, .obj [("name".data, .str "B".data)])])
      = (.json 500 false (some "Server error".data) none, []) := by
  decide

/-- C1, amended: whenever one of the five validation rules fails, `POST /submit`
answers 400 with the message of the first rule that fails, in the documented order
(player 1 or its name missing, group flag not `yes`, player 2 or its name missing,
`@` in an email, no fee `yes`), and leaves the store as it was: for the first three
rules on every payload, and for the email and fee rules on every payload whose two
emails are each a string or absent. -/
theorem submit_first_failing_rule (lib : Lib) (env : SaveEnv) (store : Store)
    (body : JsVal) (msg : String) (h : firstFailingRule body = some msg)
    (hty : (textOrAbsent ((body.get "p1").get "email") = true ∧
            textOrAbsent ((body.get "p2").get "email") = true) ∨
      msg = "Missing Player 1 name" ∨ msg = "Please come back with a group." ∨
      msg = "Group entries must include both members.") :
    submit lib env store body = (.json 400 false (some msg.data) none, store) :=
  submit_eq_of_firstFailingRule lib env store body msg h hty

/-- C1 amended, at two concrete payloads: a named first player without a group, whose
email is the number 5, is told to come back with a group; two named players with
text emails and no fee get the fee message; the store stays empty. -/
theorem submit_first_failing_rule_witness :
    submit asciiLib ⟨"id1".data, 1⟩ []
        (.obj [("group".data, .str "no".data),
               ("p1".data, .obj [("name".data, .str "Ann".data),
                                 ("email".data, .num 0x4014000000000000)])])
      = (.json 400 false (some "Please come back with a group.".data) none, []) ∧
    submit asciiLib ⟨"id1".data, 1⟩ []
        (.obj [("group".data, .str "yes".data),
               ("p1".data, .obj [("name".data, .str "Ann".data),
                                 ("email".data, .str "ann".data)]),
               ("p2".data, .obj [("name".data, .str "Bob".data),
                                 ("fee".data, .str "no".data)])])
      = (.json 400 false
          (some "Please go to Mr Smith (M22) To find out more. You cannot join.".data)
          none, []) :=
  ⟨submit_first_failing_rule _ _ _ _ _ (by decide) (Or.inr (Or.inr (Or.inl rfl))),
   submit_first_failing_rule _ _ _ _ _ (by decide) (Or.inl (by decide))⟩

/-- C2, refuted as stated: a payload whose first email contains `@` and whose first
player has no name is answered with the missing-name message, not the email message. -/
theorem submit_at_sign_not_regardless :
    containsAt (.str "a@b".data) = true ∧
    submit asciiLib ⟨"id1".data, 1⟩ []
        (.obj [("group".data, .str "yes".data),
               ("p1".data, .obj [("email".data, .str "a@b".data)]),
               ("p2".data, .obj [("name".data, .str "Bob".data),
                                 ("fee".data, .str "yes".data)])])
      = (.json 400 false (some "Missing Player 1 name".data) none, []) ∧
    submit asciiLib ⟨"id1".data, 1⟩ []
        (.obj [("group".data, .str "yes".data),
               ("p1".data, .obj [("email".data, .str "a@b".data)]),
               ("p2".data, .obj [("name".data, .str "Bob".data),
                                 ("fee".data, .str "yes".data)])])
      ≠ (.json 400 false (some "Do not include @ in email".data) none, []) := by
  decide

/-- C2, amended: for every payload whose two emails are each a string or absent and
one of which contains `@`, the answer is 400 and the store is unchanged, whatever the
fees and the other fields are; the message is `Do not include @ in email` when both
players are named and the group flag is `yes`, and otherwise the message of the
earlier rule that fails (missing player 1 name, then group flag, then missing
player 2 name). -/
theorem submit_at_sign_rejected (lib : Lib) (env : SaveEnv) (store : Store) (body : JsVal)
    (ht1 : textOrAbsent ((body.get "p1").get "email") = true)
    (ht2 : textOrAbsent ((body.get "p2").get "email") = true)
    (hat : containsAt ((body.get "p1").get "email") = true ∨
      containsAt ((body.get "p2").get "email") = true) :
    submit lib env store body
      = (.json 400 false
          (some (if missing (body.get "p1") = true ∨
                    missing ((body.get "p1").get "name") = true then
                  "Missing Player 1 name"
                else if (body.get "group").isStr "yes" = false then
                  "Please come back with a group."
                else if missing (body.get "p2") = true ∨
                    missing ((body.get "p2").get "name") = true then
                  "Group entries must include both members."
                else "Do not include @ in email" : String).data) none, store) := by
  apply submit_eq_of_firstFailingRule _ _ _ _ _ _ (Or.inl ⟨ht1, ht2⟩)
  unfold firstFailingRule
  simp only [hat, if_true]
  split_ifs <;> rfl

/-- C2 amended, at two concrete payloads with `bob@x` as second email: with both
players named and group `yes` the email message is returned, with group `no` the
group message. -/
theorem submit_at_sign_rejected_witness :
    submit asciiLib ⟨"id1".data, 1⟩ []
        (.obj [("group".data, .str "yes".data),
               ("p1".data, .obj [("name".data, .str "Ann".data)]),
               ("p2".data, .obj [("name".data, .str "Bob".data),
                                 ("email".data, .str "bob@x".data)])])
      = (.json 400 false (some "Do not include @ in email".data) none, []) ∧
    submit asciiLib ⟨"id1".data, 1⟩ []
        (.obj [("group".data, .str "no".data),
               ("p1".data, .obj [("name".data, .str "Ann".data)]),
               ("p2".data, .obj [("name".data, .str "Bob".data),
                                 ("email".data, .str "bob@x".data)])])
      = (.json 400 false (some "Please come back with a group.".data) none, []) :=
  ⟨submit_at_sign_rejected asciiLib ⟨"id1".data, 1⟩ [] _ (by decide) (by decide)
      (by decide),
   submit_at_sign_rejected asciiLib ⟨"id1".data, 1⟩ [] _ (by decide) (by decide)
      (by decide)⟩

/-- C3, refuted as stated: the one-space string is non-empty and has no `@`, and its
normal form is the empty string, not the bare domain. -/
theorem normalizeEmail_blank :
    " ".data ≠ [] ∧ '@' ∉ " ".data ∧
    normalizeEmail asciiLib (.str " ".data) = .ok (some []) ∧
    normalizeEmail asciiLib (.str " ".data)
      ≠ .ok (some (toLowerCase (trim " ".data) ++ "@arkvictoria.org".data)) := by
  decide

/-- C3, amended: for an input without `@`, `normalizeEmail` gives the empty string when
the trimmed input is empty (so for the empty input) and otherwise the lowercased
trimmed input followed by `@arkvictoria.org`; for an input with `@` it gives the
rejection marker; `John.Smith` becomes `john.smith@arkvictoria.org`. -/
theorem normalizeEmail_spec (lib : Lib) (x : Str) :
    ('@' ∉ x → trim x = [] → normalizeEmail lib (.str x) = .ok (some [])) ∧
    ('@' ∉ x → trim x ≠ [] →
      normalizeEmail lib (.str x)
        = .ok (some (toLowerCase (trim x) ++ "@arkvictoria.org".data))) ∧
    ('@' ∈ x → normalizeEmail lib (.str x) = .ok none) ∧
    normalizeEmail lib (.str []) = .ok (some []) ∧
    normalizeEmail lib (.str "John.Smith".data)
      = .ok (some "john.smith@arkvictoria.org".data) := by
  refine ⟨?_, ?_, ?_, ?_, ?_⟩
  · intro h1 h2
    rw [normalizeEmail_str]
    by_cases h0 : x = []
    · simp [h0]
    · simp [h0, h1, normalizeText, h2, toLowerCase]
  · intro h1 h2
    have h0 : x ≠ [] := by
      rintro rfl
      exact h2 (by decide)
    have h3 : toLowerCase (trim x) ≠ [] := by
      simpa [toLowerCase] using h2
    rw [normalizeEmail_str]
    simp [h0, h1, normalizeText, h3]
  · intro h1
    have h0 : x ≠ [] := by
      rintro rfl
      cases h1
    rw [normalizeEmail_str]
    simp [h0, h1]
  · rw [normalizeEmail_str]
    simp
  · rw [normalizeEmail_str]
    decide

/-- C3 amended, at a concrete input with surrounding blanks and capitals. -/
theorem normalizeEmail_spec_witness :
    normalizeEmail asciiLib (.str " Jane.DOE ".data)
      = .ok (some "jane.doe@arkvictoria.org".data) :=
  (normalizeEmail_spec asciiLib " Jane.DOE ".data).2.1 (by decide) (by decide)

theorem isStr_iff (v : JsVal) (s : String) : v.isStr s = true ↔ v = .str s.data := by
  cases v <;> simp [JsVal.isStr]

theorem or_str_ofText (t : Option Str) (d : Str) :
    (ofText t).or (.str d) = .str (orElse t d) := by
  rcases t with _ | _ | ⟨c, cs⟩ <;> simp [ofText, JsVal.or, JsVal.truthy, orElse]

theorem orElse_nil (v : Option Str) : orElse v [] = v.getD [] := by
  rcases v with _ | _ | ⟨c, cs⟩ <;> rfl

theorem truthy_of_get_str (v : JsVal) (key : String) (c : Char) (cs : Str)
    (h : v.get key = .str (c :: cs)) : v.truthy = true := by
  cases v <;> simp_all [JsVal.get, JsVal.truthy]

/-- The draft built from a sub-record whose text properties are strings or absent. -/
theorem memberOf_of_reads (p : Person) (v : JsVal) (hr : p.reads v) (paid : Bool)
    (email : Str) :
    memberOf v paid email
      = { name := ofText p.name, form := .str (orElse p.form []),
          year := .str (orElse p.year []), experience := .str (orElse p.experience []),
          past := .str (orElse p.past "no".data), reason := .str (orElse p.reason []),
          feePaid := paid, email := email } := by
  obtain ⟨h1, h2, h3, h4, h5, h6, -⟩ := hr
  simp only [memberOf, h1, h2, h3, h4, h5, h6, or_str_ofText]

/-- The draft of a named player whose `past` is absent, empty, `yes` or `no` passes
the schema, and the stored member has the same texts. -/
theorem castMember_memberOf (lib : Lib) (p : Person) (v : JsVal) (hr : p.reads v)
    (paid : Bool) (email : Str) (hn : truthy p.name = true)
    (hp : p.past = none ∨ p.past = some [] ∨ p.past = some "yes".data ∨
      p.past = some "no".data) :
    castMember lib (memberOf v paid email)
      = some { name := p.name, form := some (orElse p.form []),
               year := some (orElse p.year []),
               experience := some (orElse p.experience []),
               past := some (orElse p.past "no".data),
               reason := some (orElse p.reason []),
               feePaid := some paid, email := some email } := by
  obtain ⟨c, cs, hname⟩ := (truthy_eq_true_iff _).1 hn
  rw [memberOf_of_reads p v hr]
  rcases hp with h | h | h | h <;>
    simp [castMember, castString, ofText, hname, h, orElse, validMember, truthy]

/-- C4, refuted as stated, at two payloads that pass the five validation rules: with
the second `past` equal to `maybe` the schema rejects the save, and with the first
email equal to the number 5 the handler throws at `raw.includes`; both are answered
500 `Server error` and no group is stored. -/
theorem submit_past_outside_enum :
    firstFailingRule
        (.obj [("group".data, .str "yes".data),
               ("p1".data, .obj [("name".data, .str "Ann".data),
                                 ("fee".data, .str "yes".data)]),
               ("p2".data, .obj [("name".data, .str "Bob".data),
                                 ("past".data, .str "maybe".data)])]) = none ∧
    submit asciiLib ⟨"id1".data, 1⟩ []
        (.obj [("group".data, .str "yes".data),
               ("p1".data, .obj [("name".data, .str "Ann".data),
                                 ("fee".data, .str "yes".data)]),
               ("p2".data, .obj [("name".data, .str "Bob".data),
                                 ("past".data, .str "maybe".data)])])
      = (.json 500 false (some "Server error".data) none, []) ∧
    firstFailingRule
        (.obj [("group".data, .str "yes".data),
               ("p1".data, .obj [("name".data, .str "Ann".data),
                                 ("fee".data, .str "yes".data),
                                 ("email".data, .num 0x4014000000000000)]),
               ("p2".data, .obj [("name".data, .str "Bob".data)])]) = none ∧
    submit asciiLib ⟨"id1".data, 1⟩ []
        (.obj [("group".data, .str "yes".data),
               ("p1".data, .obj [("name".data, .str "Ann".data),
                                 ("fee".data, .str "yes".data),
                                 ("email".data, .num 0x4014000000000000)]),
               ("p2".data, .obj [("name".data, .str "Bob".data)])])
      = (.json 500 false (some "Server error".data) none, []) := by
  decide

/-- C4, amended: take a payload in which the name, form, year, experience, past,
reason and email of both players are each a string or absent, that passes the five
validation rules (both names non-empty, group flag `yes`, no `@` in either email, a
fee equal to `yes`) and whose two `past` values are each absent, empty, `yes` or
`no`.  It adds exactly one group at the end of the store and is answered `ok` with
that group's identifier.  The group has two members, the first player's then the
second player's, each with the submitted name, with form, year, experience and
reason as submitted or empty when absent, `past` as submitted or `no` when absent
or empty, `feePaid` true exactly when that player's fee is the string `yes`, and the
normalized email; `groupFeePaid` is the disjunction of the two `feePaid` values,
which is true. -/
theorem submit_valid_creates_group (lib : Lib) (env : SaveEnv) (store : Store)
    (body : JsVal) (p1 p2 : Person)
    (hr1 : p1.reads (body.get "p1")) (hr2 : p2.reads (body.get "p2"))
    (hg : body.get "group" = .str "yes".data)
    (hn1 : truthy p1.name = true) (hn2 : truthy p2.name = true)
    (he1 : '@' ∉ p1.email.getD []) (he2 : '@' ∉ p2.email.getD [])
    (hfee : (body.get "p1").get "fee" = .str "yes".data ∨
      (body.get "p2").get "fee" = .str "yes".data)
    (hp1 : p1.past = none ∨ p1.past = some [] ∨ p1.past = some "yes".data ∨
      p1.past = some "no".data)
    (hp2 : p2.past = none ∨ p2.past = some [] ∨ p2.past = some "yes".data ∨
      p2.past = some "no".data) :
    ∃ e1 e2 paid1 paid2,
      normalizeEmail lib (.str (p1.email.getD [])) = .ok (some e1) ∧
      normalizeEmail lib (.str (p2.email.getD [])) = .ok (some e2) ∧
      (paid1 = true ↔ (body.get "p1").get "fee" = .str "yes".data) ∧
      (paid2 = true ↔ (body.get "p2").get "fee" = .str "yes".data) ∧
      (paid1 || paid2) = true ∧
      submit lib env store body
        = (.json 200 true none (some env.newId),
           store ++
            [{ id := env.newId,
               members :=
                [ { name := p1.name, form := some (orElse p1.form []),
                    year := some (orElse p1.year []),
                    experience := some (orElse p1.experience []),
                    past := some (orElse p1.past "no".data),
                    reason := some (orElse p1.reason []),
                    feePaid := some paid1, email := some e1 },
                  { name := p2.name, form := some (orElse p2.form []),
                    year := some (orElse p2.year []),
                    experience := some (orElse p2.experience []),
                    past := some (orElse p2.past "no".data),
                    reason := some (orElse p2.reason []),
                    feePaid := some paid2, email := some e2 } ],
               groupFeePaid := some (paid1 || paid2),
               createdAt := some env.now }]) := by
  obtain ⟨c1, n1, hname1⟩ := (truthy_eq_true_iff _).1 hn1
  obtain ⟨c2, n2, hname2⟩ := (truthy_eq_true_iff _).1 hn2
  have hgn1 : (body.get "p1").get "name" = .str (c1 :: n1) := by
    rw [hr1.1, hname1]; rfl
  have hgn2 : (body.get "p2").get "name" = .str (c2 :: n2) := by
    rw [hr2.1, hname2]; rfl
  have ht1 := truthy_of_get_str _ _ _ _ hgn1
  have ht2 := truthy_of_get_str _ _ _ _ hgn2
  have hem1 : ((body.get "p1").get "email").or (.str []) = .str (p1.email.getD []) := by
    rw [hr1.2.2.2.2.2.2, or_str_of_text]
  have hem2 : ((body.get "p2").get "email").or (.str []) = .str (p2.email.getD []) := by
    rw [hr2.2.2.2.2.2.2, or_str_of_text]
  have hex1 : ∃ e, normalizeEmail lib (.str (p1.email.getD [])) = .ok (some e) := by
    rw [normalizeEmail_str]
    by_cases h0 : p1.email.getD [] = []
    · exact ⟨[], by simp [h0]⟩
    · obtain ⟨e, he⟩ := normalizeText_isSome (p1.email.getD [])
      exact ⟨e, by simp [h0, he1, he]⟩
  have hex2 : ∃ e, normalizeEmail lib (.str (p2.email.getD [])) = .ok (some e) := by
    rw [normalizeEmail_str]
    by_cases h0 : p2.email.getD [] = []
    · exact ⟨[], by simp [h0]⟩
    · obtain ⟨e, he⟩ := normalizeText_isSome (p2.email.getD [])
      exact ⟨e, by simp [h0, he2, he]⟩
  obtain ⟨e1, h1⟩ := hex1
  obtain ⟨e2, h2⟩ := hex2
  have hpaid : (((body.get "p1").get "fee").isStr "yes" ||
      ((body.get "p2").get "fee").isStr "yes") = true := by
    rw [Bool.or_eq_true, isStr_iff, isStr_iff]
    exact hfee
  refine ⟨e1, e2, ((body.get "p1").get "fee").isStr "yes",
    ((body.get "p2").get "fee").isStr "yes", h1, h2, isStr_iff _ _, isStr_iff _ _,
    hpaid, ?_⟩
  have hgs : (body.get "group").isStr "yes" = true := (isStr_iff _ _).2 hg
  have hc1 := castMember_memberOf lib p1 _ hr1 (((body.get "p1").get "fee").isStr "yes")
    e1 hn1 hp1
  have hc2 := castMember_memberOf lib p2 _ hr2 (((body.get "p2").get "fee").isStr "yes")
    e2 hn2 hp2
  have hany : ([memberOf (body.get "p1") (((body.get "p1").get "fee").isStr "yes") e1,
      memberOf (body.get "p2") (((body.get "p2").get "fee").isStr "yes") e2].any
        fun m => m.feePaid)
      = (((body.get "p1").get "fee").isStr "yes" ||
          ((body.get "p2").get "fee").isStr "yes") := by
    simp [memberOf]
  have hs1 : (JsVal.str (c1 :: n1)).truthy = true := by simp [JsVal.truthy]
  have hs2 : (JsVal.str (c2 :: n2)).truthy = true := by simp [JsVal.truthy]
  unfold submit
  simp only [get_or_obj, ht1, ht2, hgn1, hgn2, hgs, hs1, hs2, hem1, hem2, h1, h2,
    hany, hpaid, save, castMembers, hc1, hc2]
  simp

/-- C4 amended, at a concrete payload: the second player pays, the first played before;
the answer carries the new identifier and the store holds one group. -/
theorem submit_valid_creates_group_witness :
    (submit asciiLib ⟨"id1".data, 7⟩ []
        (.obj [("group".data, .str "yes".data),
               ("p1".data, .obj [("name".data, .str "Ann".data),
                                 ("past".data, .str "yes".data),
                                 ("email".data, .str "Ann.Lee".data)]),
               ("p2".data, .obj [("name".data, .str "Bob".data),
                                 ("fee".data, .str "yes".data)])])).1
      = .json 200 true none (some "id1".data) ∧
    (submit asciiLib ⟨"id1".data, 7⟩ []
        (.obj [("group".data, .str "yes".data),
               ("p1".data, .obj [("name".data, .str "Ann".data),
                                 ("past".data, .str "yes".data),
                                 ("email".data, .str "Ann.Lee".data)]),
               ("p2".data, .obj [("name".data, .str "Bob".data),
                                 ("fee".data, .str "yes".data)])])).2.length
      = 1 := by
  obtain ⟨e1, e2, a, b, -, -, -, -, -, h⟩ :=
    submit_valid_creates_group asciiLib ⟨"id1".data, 7⟩ []
      (.obj [("group".data, .str "yes".data),
             ("p1".data, .obj [("name".data, .str "Ann".data),
                               ("past".data, .str "yes".data),
                               ("email".data, .str "Ann.Lee".data)]),
             ("p2".data, .obj [("name".data, .str "Bob".data),
                               ("fee".data, .str "yes".data)])])
      { name := some "Ann".data, past := some "yes".data, email := some "Ann.Lee".data }
      { name := some "Bob".data }
      ⟨rfl, rfl, rfl, rfl, rfl, rfl, rfl⟩ ⟨rfl, rfl, rfl, rfl, rfl, rfl, rfl⟩ rfl
      (by decide) (by decide) (by decide) (by decide) (Or.inr rfl) (by decide) (by decide)
  rw [h]
  exact ⟨rfl, rfl⟩

/-! ## Session gate -/

theorem passwordAccepted_iff (envPass : Option Str) (pw : Option Str) :
    passwordAccepted envPass pw = true ↔
      TEACHER_PASS envPass ≠ [] ∧ orElse pw [] = TEACHER_PASS envPass := by
  unfold passwordAccepted
  cases h : TEACHER_PASS envPass <;> simp [truthy]

theorem TEACHER_PASS_ne_nil (envPass : Option Str) : TEACHER_PASS envPass ≠ [] := by
  unfold TEACHER_PASS
  rcases envPass with _ | _ | ⟨c, cs⟩ <;> simp [orElse]

theorem step_login_flag (cfg : Config) (st : State) (pw : Option Str) :
    (step cfg st (.login pw)).2.authenticated
      = (st.authenticated || passwordAccepted cfg.teacherPassEnv pw) := by
  simp only [step]
  split_ifs with h <;> simp [h]

theorem step_other_flag (cfg : Config) (st : State) (r : Request)
    (h1 : ∀ pw, r ≠ .login pw) (h2 : r ≠ .logout) :
    (step cfg st r).2.authenticated = st.authenticated := by
  cases r with
  | login pw => exact absurd rfl (h1 pw)
  | logout => exact absurd rfl h2
  | index => rfl
  | submit env body => rfl
  | teacher => simp only [step]; split_ifs <;> rfl
  | delete id => simp only [step]; split_ifs <;> rfl
  | dashboard q => simp only [step]; split_ifs <;> rfl
  | exportCsv => simp only [step]; split_ifs <;> rfl

/-- The flag after a sequence of requests: it was set at the start and no logout
followed, or some accepted login is followed by no logout. -/
theorem run_authenticated_iff (cfg : Config) (rs : List Request) (st : State) :
    (run cfg st rs).authenticated = true ↔
      (st.authenticated = true ∧ ∀ r ∈ rs, r ≠ Request.logout) ∨
      ∃ pre pw post, rs = pre ++ Request.login pw :: post ∧
        passwordAccepted cfg.teacherPassEnv pw = true ∧ ∀ r ∈ post, r ≠ Request.logout := by
  induction rs generalizing st with
  | nil => simp [run]
  | cons r rs ih =>
    rw [run, ih]
    constructor
    · rintro (⟨ha, hno⟩ | ⟨pre, pw, post, rfl, hacc, hno⟩)
      · by_cases hl : ∃ pw, r = .login pw
        · obtain ⟨pw, rfl⟩ := hl
          rw [step_login_flag, Bool.or_eq_true] at ha
          rcases ha with ha | ha
          · left
            refine ⟨ha, ?_⟩
            intro x hx
            rcases List.mem_cons.1 hx with rfl | hx
            · simp
            · exact hno x hx
          · right
            exact ⟨[], pw, rs, rfl, ha, hno⟩
        · have hl' : ∀ pw, r ≠ .login pw := fun pw h => hl ⟨pw, h⟩
          by_cases ho : r = .logout
          · subst ho
            simp [step] at ha
          · left
            rw [step_other_flag cfg st r hl' ho] at ha
            refine ⟨ha, ?_⟩
            intro x hx
            rcases List.mem_cons.1 hx with rfl | hx
            · exact ho
            · exact hno x hx
      · right
        exact ⟨r :: pre, pw, post, rfl, hacc, hno⟩
    · rintro (⟨ha, hno⟩ | ⟨pre, pw, post, heq, hacc, hno⟩)
      · left
        have ho : r ≠ .logout := hno r (List.mem_cons_self _ _)
        refine ⟨?_, fun x hx => hno x (List.mem_cons_of_mem _ hx)⟩
        by_cases hl : ∃ pw, r = .login pw
        · obtain ⟨pw, rfl⟩ := hl
          rw [step_login_flag, ha]; rfl
        · rw [step_other_flag cfg st r (fun pw h => hl ⟨pw, h⟩) ho]; exact ha
      · cases pre with
        | nil =>
          simp only [List.nil_append, List.cons.injEq] at heq
          obtain ⟨rfl, rfl⟩ := heq
          left
          refine ⟨?_, hno⟩
          rw [step_login_flag, hacc]; simp
        | cons p pre =>
          simp only [List.cons_append, List.cons.injEq] at heq
          obtain ⟨rfl, rfl⟩ := heq
          right
          exact ⟨pre, pw, post, rfl, hacc, hno⟩

/-- C5: over the step relation on the session flag and the store, the flag becomes
true only at a login whose password equals the configured non-empty secret, any other
login leaves it as it was, logout clears it and no other route changes it; so after
a sequence of requests of a fresh session the flag is true exactly when an accepted
login is followed by no logout.  With the flag false, delete and export answer
401 `Unauthorized` and the dashboard redirects to `/teacher`, the answer does not
depend on the store and the state is unchanged; with the flag true, delete removes
the group and redirects to the dashboard, the dashboard sends its page and export
sends the CSV body.  The configured secret is never empty. -/
theorem session_gate (cfg : Config) :
    (∀ st pw, (step cfg st (.login pw)).2.authenticated
        = (st.authenticated || passwordAccepted cfg.teacherPassEnv pw)) ∧
    (∀ pw, passwordAccepted cfg.teacherPassEnv pw = true ↔
        TEACHER_PASS cfg.teacherPassEnv ≠ [] ∧
          orElse pw [] = TEACHER_PASS cfg.teacherPassEnv) ∧
    (∀ st, (step cfg st .logout).2.authenticated = false) ∧
    (∀ st r, (∀ pw, r ≠ .login pw) → r ≠ .logout →
        (step cfg st r).2.authenticated = st.authenticated) ∧
    (∀ store rs, (run cfg ⟨false, store⟩ rs).authenticated = true ↔
        ∃ pre pw post, rs = pre ++ Request.login pw :: post ∧
          passwordAccepted cfg.teacherPassEnv pw = true ∧
          ∀ r ∈ post, r ≠ Request.logout) ∧
    (∀ store id q,
        step cfg ⟨false, store⟩ (.delete id)
          = (.text 401 "Unauthorized".data, ⟨false, store⟩) ∧
        step cfg ⟨false, store⟩ (.dashboard q)
          = (.redirect "/teacher".data, ⟨false, store⟩) ∧
        step cfg ⟨false, store⟩ .exportCsv
          = (.text 401 "Unauthorized".data, ⟨false, store⟩)) ∧
    (∀ store id q,
        step cfg ⟨true, store⟩ (.delete id)
          = (.redirect "/teacher/dashboard".data, ⟨true, deleteOne id store⟩) ∧
        step cfg ⟨true, store⟩ (.dashboard q)
          = (.html (teacherDashboard cfg.lib (dashboardGroups cfg.lib cfg.other store q)
              (trim (orElse q []))), ⟨true, store⟩) ∧
        step cfg ⟨true, store⟩ .exportCsv
          = (.csv (exportCsv cfg.lib store), ⟨true, store⟩)) ∧
    TEACHER_PASS cfg.teacherPassEnv ≠ [] := by
  refine ⟨step_login_flag cfg, passwordAccepted_iff _, fun st => rfl,
    step_other_flag cfg, ?_, fun store id q => ⟨rfl, rfl, rfl⟩,
    fun store id q => ⟨rfl, rfl, rfl⟩, TEACHER_PASS_ne_nil _⟩
  intro store rs
  rw [run_authenticated_iff]
  simp

/-- C5, on a concrete session with the default secret: a wrong password, then staff
routes are refused; after the right password the export is served; after logout it
is refused again. -/
theorem session_gate_witness :
    (step ⟨asciiLib, fun _ _ => false, none⟩
        (run ⟨asciiLib, fun _ _ => false, none⟩ ⟨false, []⟩
          [.login (some "guess".data)]) .exportCsv).1
      = .text 401 "Unauthorized".data ∧
    (run ⟨asciiLib, fun _ _ => false, none⟩ ⟨false, []⟩
        [.login (some "guess".data), .login (some "Arkvic".data), .dashboard none]).authenticated
      = true ∧
    (run ⟨asciiLib, fun _ _ => false, none⟩ ⟨false, []⟩
        [.login (some "Arkvic".data), .logout]).authenticated = false := by
  refine ⟨by decide, ?_, by decide⟩
  exact ((session_gate ⟨asciiLib, fun _ _ => false, none⟩).2.2.2.2.1 [] _).2
    ⟨[.login (some "guess".data)], some "Arkvic".data, [.dashboard none], rfl, by decide,
      by simp⟩

/-! ## CSV export -/

theorem join_cons_cons (sep x y : Str) (ys : List Str) :
    join sep (x :: y :: ys) = x ++ sep ++ join sep (y :: ys) := by
  simp [join, List.intercalate, List.intersperse]

theorem join_singleton (sep x : Str) : join sep [x] = x := by
  simp [join, List.intercalate, List.intersperse]

theorem join_cons_eq (sep x : Str) (ys : List Str) :
    join sep (x :: ys) = x ++ (ys.map (sep ++ ·)).flatten := by
  induction ys generalizing x with
  | nil => simp [join_singleton]
  | cons y ys ih => rw [join_cons_cons, ih y]; simp

theorem foldl_csvStep_escaped (s : Str) (f : Str) (r : List Str) (rs : List (List Str)) :
    (replaceAll '"' ['"', '"'] s).foldl csvStep ⟨.quoted, f, r, rs⟩
      = ⟨.quoted, s.reverse ++ f, r, rs⟩ := by
  induction s generalizing f with
  | nil => rfl
  | cons c cs ih =>
    by_cases hc : c = '"'
    · subst hc
      simp only [replaceAll, if_true, List.cons_append, List.nil_append, List.foldl_cons]
      simp only [csvStep, if_true]
      rw [ih]
      simp
    · simp only [replaceAll, hc, if_false, List.foldl_cons]
      simp only [csvStep, hc, if_false]
      rw [ih]
      simp

theorem foldl_csvStep_csvSafe (v : Option Str) (r : List Str) (rs : List (List Str)) :
    (csvSafe v).foldl csvStep ⟨.fieldStart, [], r, rs⟩
      = ⟨.quoteSeen, (v.getD []).reverse, r, rs⟩ := by
  unfold csvSafe
  rw [List.foldl_cons, List.foldl_append]
  simp only [csvStep, if_true]
  rw [foldl_csvStep_escaped]
  simp [csvStep]

/-- Reading one joined line of quoted fields from the start of a record: the parser
stops after the closing quote of the last field, with the earlier fields recorded. -/
theorem foldl_csvStep_line (v : Option Str) (vs : List (Option Str)) (r : List Str)
    (rs : List (List Str)) :
    ∃ f r', (join [','] ((v :: vs).map csvSafe)).foldl csvStep ⟨.fieldStart, [], r, rs⟩
        = ⟨.quoteSeen, f, r', rs⟩ ∧
      (f.reverse :: r').reverse = r.reverse ++ (v :: vs).map (·.getD []) := by
  induction vs generalizing v r with
  | nil =>
    refine ⟨(v.getD []).reverse, r, ?_, ?_⟩
    · simp only [List.map_cons, List.map_nil, join_singleton]
      exact foldl_csvStep_csvSafe v r rs
    · simp
  | cons w ws ih =>
    obtain ⟨f, r', h1, h2⟩ := ih w ((v.getD []) :: r)
    refine ⟨f, r', ?_, ?_⟩
    · simp only [List.map_cons] at h1 ⊢
      rw [join_cons_cons, List.foldl_append, List.foldl_append, foldl_csvStep_csvSafe]
      simp only [List.foldl_cons, List.foldl_nil]
      have : csvStep ⟨.quoteSeen, (v.getD []).reverse, r, rs⟩ ','
          = ⟨.fieldStart, [], (v.getD []) :: r, rs⟩ := by
        simp [csvStep, CsvState.endField]
      rw [this]
      exact h1
    · rw [h2]
      simp

theorem csvCells_eq_cons (lib : Lib) (g : Group) :
    ∃ v vs, csvCells lib g = v :: vs := ⟨_, _, rfl⟩

/-- Parsing one exported line gives back exactly its field values. -/
theorem csvParse_csvLine (lib : Lib) (g : Group) :
    csvParse (csvLine lib g) = some [csvValues lib g] := by
  obtain ⟨v, vs, hc⟩ := csvCells_eq_cons lib g
  obtain ⟨f, r', h1, h2⟩ := foldl_csvStep_line v vs [] []
  unfold csvParse csvLine csvValues
  rw [hc]
  simp only [h1]
  simp only [CsvState.endRecord, h2]
  simp

theorem csvStep_newline (s : CsvState) (h : s.mode = .bare ∨ s.mode = .quoteSeen) :
    csvStep s '\n' = s.endRecord := by
  rcases h with h | h <;> simp [csvStep, h]

/-- Reading the lines that follow a complete line: each adds one record. -/
theorem foldl_csvStep_lines (lib : Lib) (gs : List Group) (s : CsvState)
    (h : s.mode = .bare ∨ s.mode = .quoteSeen) :
    ∃ s', ((gs.map fun g => ['\n'] ++ csvLine lib g).flatten).foldl csvStep s = s' ∧
      (s'.mode = .bare ∨ s'.mode = .quoteSeen) ∧
      s'.endRecord.records.reverse
        = s.endRecord.records.reverse ++ gs.map (csvValues lib) := by
  induction gs generalizing s with
  | nil => exact ⟨s, rfl, h, by simp⟩
  | cons g gs ih =>
    obtain ⟨v, vs, hc⟩ := csvCells_eq_cons lib g
    obtain ⟨f, r', h1, h2⟩ := foldl_csvStep_line v vs [] s.endRecord.records
    obtain ⟨s', e1, e2, e3⟩ := ih ⟨.quoteSeen, f, r', s.endRecord.records⟩ (Or.inr rfl)
    refine ⟨s', ?_, e2, ?_⟩
    · rw [← e1]
      simp only [List.map_cons, List.flatten_cons, List.foldl_append, List.foldl_cons,
        List.foldl_nil]
      rw [csvStep_newline s h]
      have : s.endRecord = ⟨.fieldStart, [], [], s.endRecord.records⟩ := rfl
      rw [this]
      unfold csvLine
      rw [hc, h1]
    · rw [e3]
      simp only [CsvState.endRecord, h2]
      simp [csvValues, hc]

set_option maxRecDepth 20000 in
theorem foldl_csvStep_header :
    (join [','] csvHeaderCells).foldl csvStep ⟨.fieldStart, [], [], []⟩
      = ⟨.bare, "CreatedAt".data.reverse, (csvHeaderCells.take 13).reverse, []⟩ := by
  decide

/-- Parsing the exported document gives the header cells and then, for each group in
listing order, its field values. -/
theorem csvParse_exportCsv (lib : Lib) (store : Store) :
    csvParse (exportCsv lib store)
      = some (csvHeaderCells :: (sortNewestFirst store).map (csvValues lib)) := by
  unfold exportCsv
  rw [join_cons_eq]
  obtain ⟨s', e1, e2, e3⟩ := foldl_csvStep_lines lib (sortNewestFirst store)
    ⟨.bare, "CreatedAt".data.reverse, (csvHeaderCells.take 13).reverse, []⟩ (Or.inl rfl)
  have hfold : ((join [','] csvHeaderCells ++
      (((sortNewestFirst store).map (csvLine lib)).map (['\n'] ++ ·)).flatten).foldl csvStep
        ⟨.fieldStart, [], [], []⟩) = s' := by
    rw [List.foldl_append, foldl_csvStep_header, ← e1, List.map_map]
    rfl
  unfold csvParse
  simp only [hfold]
  have hrec : s'.endRecord.records.reverse
      = csvHeaderCells :: (sortNewestFirst store).map (csvValues lib) := by
    rw [e3]
    rfl
  rcases e2 with e2 | e2 <;> simp only [e2, hrec]

theorem sortNewestFirst_perm (groups : List Group) : (sortNewestFirst groups).Perm groups :=
  List.perm_insertionSort _ groups

theorem csvSafe_getD (v : Option Str) : csvSafe v = csvSafe (some (v.getD [])) := by
  cases v <;> rfl

theorem replaceAll_eq_flatMap (c : Char) (r : Str) (s : Str) :
    replaceAll c r s = s.flatMap fun x => if x = c then r else [x] := by
  induction s with
  | nil => rfl
  | cons x xs ih =>
    by_cases h : x = c <;> simp [replaceAll, h, ih]

/-- The values the export writes for a group are the reference record of the group. -/
theorem csvValues_eq_referenceRecord (lib : Lib) (g : Group) :
    csvValues lib g = referenceRecord lib g := by
  obtain ⟨id, members, gf, created⟩ := g
  have hy : ∀ b : Option Bool, yesNo b = if b = some true then "yes".data else "no".data := by
    intro b
    rcases b with _ | _ | _ <;> simp [yesNo, truthyB]
  have hc : (match created with
      | some t => lib.toISOString t
      | none => []) = (created.map lib.toISOString).getD [] := by
    cases created <;> rfl
  rcases members with _ | ⟨a, _ | ⟨b, rest⟩⟩ <;>
    simp [csvValues, csvCells, referenceRecord, memberColumns, memberAt, hy, hc]

set_option maxRecDepth 100000 in
/-- C6: the body of the export, read by the reference CSV parser, is the header
followed by exactly one record per stored group (all of them, newest first), and the
record of a group holds its fourteen original field strings: name, year, form,
email, fee paid and played before of the first and of the second member, the group
fee and the creation time, whatever characters they contain; every exported record
is the comma-joined list of these fourteen values each enclosed in double quotes
with every inner double quote doubled.  For a group whose first name holds a double
quote, a comma and a line feed the exported text and its parse are shown. -/
theorem exportCsv_round_trip (lib : Lib) (store : Store) :
    csvParse (exportCsv lib store)
      = some (csvHeaderCells :: (sortNewestFirst store).map (referenceRecord lib)) ∧
    ((sortNewestFirst store).map (referenceRecord lib)).length = store.length ∧
    (sortNewestFirst store).Perm store ∧
    (∀ g, (referenceRecord lib g).length = 14 ∧
      csvLine lib g = join [','] ((referenceRecord lib g).map fun s => csvSafe (some s)) ∧
      csvParse (csvLine lib g) = some [referenceRecord lib g]) ∧
    (∀ s : Str, csvSafe (some s)
      = ['"'] ++ (s.flatMap fun c => if c = '"' then ['"', '"'] else [c]) ++ ['"']) ∧
    csvLine asciiLib
        ⟨"g1".data,
          [ { name := some "Ann \"A\", Lee\nJr".data, year := some "Year 7".data,
              form := some "Watt".data, email := some "ann@arkvictoria.org".data,
              feePaid := some true, past := some "no".data },
            { name := some "Bob".data, year := some "Year 8".data,
              form := some "Tolkien".data, email := some [],
              feePaid := some false, past := some "yes".data } ],
          some true, some 5⟩
      = ("\"Ann \"\"A\"\", Lee\nJr\",\"Year 7\",\"Watt\",\"ann@arkvictoria.org\"," ++
         "\"yes\",\"no\",\"Bob\",\"Year 8\",\"Tolkien\",\"\",\"no\",\"yes\"," ++
         "\"yes\",\"5\"").data ∧
    csvParse (exportCsv asciiLib
        [⟨"g1".data,
          [ { name := some "Ann \"A\", Lee\nJr".data, year := some "Year 7".data,
              form := some "Watt".data, email := some "ann@arkvictoria.org".data,
              feePaid := some true, past := some "no".data },
            { name := some "Bob".data, year := some "Year 8".data,
              form := some "Tolkien".data, email := some [],
              feePaid := some false, past := some "yes".data } ],
          some true, some 5⟩])
      = some [ csvHeaderCells,
               [ "Ann \"A\", Lee\nJr".data, "Year 7".data, "Watt".data,
                 "ann@arkvictoria.org".data, "yes".data, "no".data,
                 "Bob".data, "Year 8".data, "Tolkien".data, [], "no".data, "yes".data,
                 "yes".data, "5".data ] ] := by
  refine ⟨?_, ?_, sortNewestFirst_perm store, ?_, ?_, by decide, by decide⟩
  · rw [csvParse_exportCsv]
    congr 2
    exact List.map_congr_left fun g _ => csvValues_eq_referenceRecord lib g
  · rw [List.length_map]
    exact (sortNewestFirst_perm store).length_eq
  · intro g
    rw [← csvValues_eq_referenceRecord]
    refine ⟨rfl, ?_, csvParse_csvLine lib g⟩
    have hmap : (csvCells lib g).map csvSafe
        = ((csvCells lib g).map (·.getD [])).map fun s => csvSafe (some s) := by
      rw [List.map_map]
      exact List.map_congr_left fun v _ => csvSafe_getD v
    unfold csvLine csvValues
    rw [hmap]
  · intro s
    simp [csvSafe, replaceAll_eq_flatMap]

/-- C7, refuted as stated: for a group with a single member the parsed export record
has fourteen columns and its Second FeePaid column holds `no`, not the empty string. -/
theorem csvLine_single_member_fee :
    csvParse (csvLine asciiLib
        ⟨"g1".data, [{ name := some "Ann".data, feePaid := some true }], some true, some 5⟩)
      = some [[ "Ann".data, [], [], [], "yes".data, [], [], [], [], [], "no".data, [],
                "yes".data, "5".data ]] ∧
    (csvValues asciiLib
        ⟨"g1".data, [{ name := some "Ann".data, feePaid := some true }], some true, some 5⟩).get? 10
      ≠ some [] := by
  decide

/-- C7, amended: for every stored group without a second member the export record
still has fourteen columns; Second Name, Second Year, Second Form, Second Email and
Second PlayedBefore hold the empty string and Second FeePaid holds `no`. -/
theorem csvLine_missing_second (lib : Lib) (g : Group) (h : g.members.length < 2) :
    csvParse (csvLine lib g) = some [csvValues lib g] ∧
    (csvValues lib g).length = 14 ∧
    ((csvValues lib g).drop 6).take 6 = [[], [], [], [], "no".data, []] := by
  refine ⟨csvParse_csvLine lib g, rfl, ?_⟩
  have h1 : g.members[1]? = none := List.getElem?_eq_none (by omega)
  simp [csvValues, csvCells, memberAt, h1, yesNo, truthyB]

/-- C7 amended, at a concrete group with one member. -/
theorem csvLine_missing_second_witness :
    ((csvValues asciiLib
        ⟨"g1".data, [{ name := some "Ann".data, feePaid := some true }], some true,
          some 5⟩).drop 6).take 6
      = [[], [], [], [], "no".data, []] :=
  (csvLine_missing_second asciiLib
    ⟨"g1".data, [{ name := some "Ann".data, feePaid := some true }], some true, some 5⟩
    (by decide)).2.2

/-! ## Dashboard search -/

theorem backslash_mem_syntaxChars : '\\' ∈ syntaxChars := by decide

/-- Every escaped query lies in the literal fragment and denotes the query itself. -/
theorem parsePattern_escapeRegex (q : Str) : parsePattern (escapeRegex q) = some q := by
  induction q with
  | nil => rfl
  | cons c cs ih =>
    by_cases hc : c ∈ syntaxChars
    · simp [escapeRegex, parsePattern, hc, ih]
    · have hb : c ≠ '\\' := fun h => hc (h ▸ backslash_mem_syntaxChars)
      rw [escapeRegex, if_neg hc, parsePattern.eq_def]
      simp [hb, hc, ih]

theorem matchHere_iff (fold : Char → Char) (lits : List Char) (s : Str) :
    matchHere fold lits s = true ↔ lits.map fold <+: s.map fold := by
  induction lits generalizing s with
  | nil => simp [matchHere]
  | cons c cs ih =>
    cases s with
    | nil => simp [matchHere]
    | cons x xs =>
      simp only [matchHere, Bool.and_eq_true, decide_eq_true_eq, ih, List.map_cons]
      rw [List.cons_prefix_cons]

theorem search_iff (fold : Char → Char) (lits : List Char) (s : Str) :
    search fold lits s = true ↔ lits.map fold <:+: s.map fold := by
  induction s with
  | nil =>
    rw [search, matchHere_iff]
    simp
  | cons x xs ih =>
    rw [search, Bool.or_eq_true, matchHere_iff, ih, List.map_cons, List.infix_cons_iff]

theorem search_eq_occursIn (fold : Char → Char) (lits : List Char) (s : Str) :
    search fold lits s = occursIn fold lits s := by
  rw [Bool.eq_iff_iff, search_iff]
  simp [occursIn]

/-- The compiled escaped query tests exactly for a folded occurrence of the query. -/
theorem regexTest_escapeRegex (lib : Lib) (other : Str → Str → Bool) (q s : Str) :
    regexTest lib other (escapeRegex q) s = occursIn lib.canonicalize q s := by
  simp [regexTest, parsePattern_escapeRegex, search_eq_occursIn]

theorem matchesFilter_eq_referenceMatch (fold : Char → Char) (q : Str) (g : Group) :
    matchesFilter (occursIn fold q) g = referenceMatch fold q g := by
  unfold matchesFilter referenceMatch anyMember
  induction g.members with
  | nil => rfl
  | cons m ms ih =>
    simp only [List.any_cons, List.any_nil, Bool.or_false] at ih ⊢
    rw [← ih]
    cases (match m.name with
      | some s => occursIn fold q s
      | none => false) <;>
    cases (match m.form with
      | some s => occursIn fold q s
      | none => false) <;>
    cases (match m.year with
      | some s => occursIn fold q s
      | none => false) <;>
    cases (match m.email with
      | some s => occursIn fold q s
      | none => false) <;> simp

theorem dashboardGroups_eq_referenceListing (lib : Lib) (other : Str → Str → Bool)
    (store : Store) (q : Option Str) :
    dashboardGroups lib other store q = referenceListing lib store q := by
  unfold dashboardGroups referenceListing
  simp only [orElse_nil]
  split
  · rfl
  · congr 1
    apply List.filter_congr
    intro g _
    have : regexTest lib other (escapeRegex (trim (q.getD [])))
        = occursIn lib.canonicalize (trim (q.getD [])) := by
      funext s
      exact regexTest_escapeRegex lib other _ s
    rw [this, matchesFilter_eq_referenceMatch]

theorem sortNewestFirst_pairwise (groups : List Group) :
    (sortNewestFirst groups).Pairwise fun a b => sortKey b ≤ sortKey a := by
  haveI : IsTotal Group (fun a b => sortKey b ≤ sortKey a) := ⟨fun a b => Nat.le_total _ _⟩
  haveI : IsTrans Group (fun a b => sortKey b ≤ sortKey a) :=
    ⟨fun a b c hab hbc => Nat.le_trans hbc hab⟩
  exact List.sorted_insertionSort _ groups

theorem sortKey_le_iff (a b : Group) :
    sortKey b ≤ sortKey a ↔ ∀ tb, b.createdAt = some tb → ∃ ta, a.createdAt = some ta ∧ tb ≤ ta := by
  unfold sortKey
  cases ha : a.createdAt <;> cases hb : b.createdAt <;> simp

theorem sortNewestFirst_newest_first (groups : List Group) :
    (sortNewestFirst groups).Pairwise fun a b =>
      ∀ tb, b.createdAt = some tb → ∃ ta, a.createdAt = some ta ∧ tb ≤ ta :=
  (sortNewestFirst_pairwise groups).imp fun h => (sortKey_le_iff _ _).1 h

/-- C8: for every store and query, the groups the dashboard lists are the reference
listing: every group when the trimmed query is empty, otherwise exactly the groups in
which the trimmed query occurs, case folded, in the name, form, year or email of some
member; the compiled escaped query matches every character of the query literally,
the pattern syntax characters included (the query `a.c` does not find `abc`); and
the listing is ordered newest first.  A
group with a member named `Alice Smith` is found by `smith`, `SMITH` and `ali`. -/
theorem dashboard_listing (lib : Lib) (other : Str → Str → Bool) (store : Store)
    (q : Option Str) :
    dashboardGroups lib other store q = referenceListing lib store q ∧
    (dashboardGroups lib other store q).Perm
      (store.filter fun g =>
        decide (trim (q.getD []) = []) ||
          referenceMatch lib.canonicalize (trim (q.getD [])) g) ∧
    ((dashboardGroups lib other store q).Pairwise fun a b =>
      ∀ tb, b.createdAt = some tb → ∃ ta, a.createdAt = some ta ∧ tb ≤ ta) ∧
    (∀ s subject : Str,
      regexTest lib other (escapeRegex s) subject
        = decide (s.map lib.canonicalize <:+: subject.map lib.canonicalize)) ∧
    regexTest asciiLib other (escapeRegex "a.c".data) "abc".data = false ∧
    regexTest asciiLib other (escapeRegex "(a.c)*".data) "x(A.C)*y".data = true ∧
    (∀ w ∈ ["smith".data, "SMITH".data, "ali".data, " Smith ".data],
      dashboardGroups asciiLib other
          [ ⟨"g1".data, [{ name := some "Carol White".data }, { name := some "Dan Brown".data }],
              some true, some 1⟩,
            ⟨"g2".data, [{ name := some "Alice Smith".data }, { name := some "Eve Green".data }],
              some true, some 2⟩ ]
          (some w)
        = [ ⟨"g2".data, [{ name := some "Alice Smith".data }, { name := some "Eve Green".data }],
              some true, some 2⟩ ]) := by
  refine ⟨dashboardGroups_eq_referenceListing lib other store q, ?_, ?_, ?_, ?_, ?_, ?_⟩
  · rw [dashboardGroups_eq_referenceListing]
    unfold referenceListing
    by_cases h : trim (q.getD []) = []
    · simp only [h, if_true, decide_True, Bool.true_or, List.filter_true]
      exact sortNewestFirst_perm store
    · simp only [h, if_false, decide_False, Bool.false_or]
      exact sortNewestFirst_perm _
  · unfold dashboardGroups
    dsimp only
    split
    · exact sortNewestFirst_newest_first _
    · exact sortNewestFirst_newest_first _
  · intro s subject
    exact regexTest_escapeRegex lib other s subject
  · rw [regexTest_escapeRegex]
    decide
  · rw [regexTest_escapeRegex]
    decide
  · intro w hw
    rw [dashboardGroups_eq_referenceListing]
    revert w
    decide

/-! ## Dashboard rendering -/

/-- The escaped form of one character. -/
theorem escapeHtml_cons (c : Char) (cs : Str) :
    escapeHtml (c :: cs)
      = (if c = '&' then "&amp;".data else if c = '<' then "&lt;".data
          else if c = '>' then "&gt;".data else [c]) ++ escapeHtml cs := by
  unfold escapeHtml
  by_cases h1 : c = '&'
  · subst h1
    simp [replaceAll]
  · by_cases h2 : c = '<'
    · subst h2
      simp [replaceAll]
    · by_cases h3 : c = '>'
      · subst h3
        simp [replaceAll]
      · simp [replaceAll, h1, h2, h3]

theorem escapeHtml_nil : escapeHtml [] = [] := rfl

theorem lt_not_mem_escapeHtml (s : Str) : '<' ∉ escapeHtml s := by
  induction s with
  | nil => simp [escapeHtml_nil]
  | cons c cs ih =>
    rw [escapeHtml_cons]
    by_cases h1 : c = '&'
    · simp [h1, ih]
    · by_cases h2 : c = '<'
      · simp [h2, ih]
      · by_cases h3 : c = '>'
        · simp [h3, ih]
        · simp [h1, h2, h3, ih, Ne.symm h2]

theorem gt_not_mem_escapeHtml (s : Str) : '>' ∉ escapeHtml s := by
  induction s with
  | nil => simp [escapeHtml_nil]
  | cons c cs ih =>
    rw [escapeHtml_cons]
    by_cases h1 : c = '&'
    · simp [h1, ih]
    · by_cases h2 : c = '<'
      · simp [h2, ih]
      · by_cases h3 : c = '>'
        · simp [h3, ih]
        · simp [h1, h2, h3, ih, Ne.symm h3]

theorem decodeHtml_cons_of_ne (c : Char) (rest : Str) (h : c ≠ '&') :
    decodeHtml (c :: rest) = c :: decodeHtml rest := by
  rw [decodeHtml]
  all_goals intros; simp_all

theorem decodeHtml_escapeHtml (s : Str) : decodeHtml (escapeHtml s) = s := by
  induction s with
  | nil => rfl
  | cons c cs ih =>
    rw [escapeHtml_cons]
    by_cases h1 : c = '&'
    · subst h1
      simp [decodeHtml, ih]
    · by_cases h2 : c = '<'
      · subst h2
        simp [decodeHtml, ih]
      · by_cases h3 : c = '>'
        · subst h3
          simp [decodeHtml, ih]
        · simp only [h1, h2, h3, if_false, List.singleton_append]
          rw [decodeHtml_cons_of_ne c _ h1, ih]

/-- A member that passes the schema has a non-empty name and all its texts present. -/
theorem castMember_some (lib : Lib) (d : MemberDraft) (m : Member)
    (h : castMember lib d = some m) :
    truthy m.name = true ∧
    ∃ n f y e p r, m = (⟨some n, some f, some y, some e, some p, some r,
      some d.feePaid, some d.email⟩ : Member) := by
  unfold castMember at h
  split at h
  · rename_i n f y e p r _ _ _ _ _ _
    dsimp only at h
    split_ifs at h with hv
    · injection h with h
      subst h
      refine ⟨?_, n, f, y, e, p, r, rfl⟩
      simp only [validMember, Bool.and_eq_true] at hv
      exact hv.1
  · cases h

/-- A successful answer of the submission handler: the store gains one group of two
members that passed the schema. -/
theorem submit_ok_inv (lib : Lib) (env : SaveEnv) (store store' : Store) (body : JsVal)
    (id : Str) (h : submit lib env store body = (.json 200 true none (some id), store')) :
    ∃ d1 d2 m1 m2 gf, castMember lib d1 = some m1 ∧ castMember lib d2 = some m2 ∧
      store' = store ++ [⟨env.newId, [m1, m2], some gf, some env.now⟩] := by
  unfold submit at h
  simp only [get_or_obj] at h
  cases h1 : (body.get "p1").truthy
  · simp [h1, reject] at h
  cases h1n : ((body.get "p1").get "name").truthy
  · simp [h1, h1n, reject] at h
  cases hg : (body.get "group").isStr "yes"
  · simp [h1, h1n, hg, reject] at h
  cases h2 : (body.get "p2").truthy
  · simp [h1, h1n, hg, h2, reject] at h
  cases h2n : ((body.get "p2").get "name").truthy
  · simp [h1, h1n, hg, h2, h2n, reject] at h
  simp only [h1, h1n, hg, h2, h2n, Bool.not_true, Bool.false_eq_true, or_self, if_false,
    Bool.or_self] at h
  cases he1 : normalizeEmail lib (((body.get "p1").get "email").or (.str [])) with
  | error e => simp [he1, serverError] at h
  | ok o1 =>
    cases he2 : normalizeEmail lib (((body.get "p2").get "email").or (.str [])) with
    | error e => simp [he1, he2, serverError] at h
    | ok o2 =>
      cases o1 with
      | none => simp [he1, he2, reject] at h
      | some e1 =>
        cases o2 with
        | none => simp [he1, he2, reject] at h
        | some e2 =>
          simp only [he1, he2] at h
          split_ifs at h with hf
          · simp [reject] at h
          · unfold save at h
            simp only [castMembers] at h
            cases hc1 : castMember lib
                (memberOf (body.get "p1") (((body.get "p1").get "fee").isStr "yes") e1) with
            | none => simp [hc1, serverError] at h
            | some m1 =>
              cases hc2 : castMember lib
                  (memberOf (body.get "p2") (((body.get "p2").get "fee").isStr "yes") e2) with
              | none => simp [hc1, hc2, serverError] at h
              | some m2 =>
                simp only [hc1, hc2, Prod.mk.injEq, Response.json.injEq, true_and,
                  Option.some.injEq] at h
                exact ⟨_, _, m1, m2, _, hc1, hc2, h.2.symm⟩

theorem memberAt_zero (id : Str) (m1 m2 : Member) (gf : Option Bool) (t : Option Nat) :
    memberAt ⟨id, [m1, m2], gf, t⟩ 0 = m1 := rfl

theorem memberAt_one (id : Str) (m1 m2 : Member) (gf : Option Bool) (t : Option Nat) :
    memberAt ⟨id, [m1, m2], gf, t⟩ 1 = m2 := rfl

/-- A row part of the first member is a piece of the row. -/
theorem part_infix_row (lib : Lib) (g : Group) (x : Str) (h : x ∈ dashboardRowParts lib g) :
    x <:+: dashboardRow lib g :=
  List.infix_of_mem_flatten h

/-- A row part of the second member, shown when that member has a name. -/
theorem second_infix_row (lib : Lib) (g : Group) (x : Str)
    (hn : truthy (memberAt g 1).name = true)
    (h : second (memberAt g 1) x ∈ dashboardRowParts lib g) :
    x <:+: dashboardRow lib g := by
  have h1 : x <:+: second (memberAt g 1) x := by
    unfold second
    rw [if_pos hn]
    exact ⟨"/ ".data, [], by simp⟩
  exact h1.trans (List.infix_of_mem_flatten h)

set_option maxRecDepth 100000 in
/-- C9, refuted as stated: a group is submitted with reason `Glory` for both players;
the row rendered for the stored group does not contain that text. -/
theorem dashboardRow_omits_reason :
    submit asciiLib ⟨"id1".data, 7⟩ []
        (.obj [("group".data, .str "yes".data),
               ("p1".data, .obj [("name".data, .str "Ann".data),
                                 ("reason".data, .str "Glory".data),
                                 ("fee".data, .str "yes".data)]),
               ("p2".data, .obj [("name".data, .str "Bob".data),
                                 ("reason".data, .str "Glory".data)])])
      = (.json 200 true none (some "id1".data),
         [⟨"id1".data,
           [ { name := some "Ann".data, form := some [], year := some [],
               experience := some [], past := some "no".data,
               reason := some "Glory".data, feePaid := some true, email := some [] },
             { name := some "Bob".data, form := some [], year := some [],
               experience := some [], past := some "no".data,
               reason := some "Glory".data, feePaid := some false, email := some [] } ],
           some true, some 7⟩]) ∧
    ¬ (escapeHtml "Glory".data <:+: dashboardRow asciiLib
        ⟨"id1".data,
          [ { name := some "Ann".data, form := some [], year := some [],
              experience := some [], past := some "no".data,
              reason := some "Glory".data, feePaid := some true, email := some [] },
            { name := some "Bob".data, form := some [], year := some [],
              experience := some [], past := some "no".data,
              reason := some "Glory".data, feePaid := some false, email := some [] } ],
          some true, some 7⟩) := by
  decide

/-- C9, amended: for every successfully submitted group, the row that the dashboard
renders for it contains, for both members, the escaped name, form, year, experience,
past and email (the reason is not rendered); `escapeHtml` leaves no `<` and no `>` in
any text, and decoding the three entities recovers the text exactly, also for
`<script>`. -/
theorem dashboardRow_shows_fields (lib : Lib) (env : SaveEnv) (store store' : Store)
    (body : JsVal) (id : Str)
    (h : submit lib env store body = (.json 200 true none (some id), store')) :
    (∃ g m1 m2, store' = store ++ [g] ∧ g.members = [m1, m2] ∧
      ∀ m ∈ [m1, m2], ∀ f ∈ [m.name, m.form, m.year, m.experience, m.past, m.email],
        ∃ s, f = some s ∧ escapeHtml s <:+: dashboardRow lib g) ∧
    (∀ s : Str, '<' ∉ escapeHtml s ∧ '>' ∉ escapeHtml s ∧ decodeHtml (escapeHtml s) = s) ∧
    escapeHtml "<script>".data = "&lt;script&gt;".data := by
  refine ⟨?_, fun s => ⟨lt_not_mem_escapeHtml s, gt_not_mem_escapeHtml s,
    decodeHtml_escapeHtml s⟩, by decide⟩
  obtain ⟨d1, d2, m1, m2, gf, hc1, hc2, rfl⟩ := submit_ok_inv lib env store store' body id h
  obtain ⟨hn1, n1, f1, y1, x1, p1, r1, rfl⟩ := castMember_some lib d1 m1 hc1
  obtain ⟨hn2, n2, f2, y2, x2, p2, r2, rfl⟩ := castMember_some lib d2 m2 hc2
  refine ⟨_, _, _, rfl, rfl, ?_⟩
  have hn2' : truthy (memberAt ⟨env.newId,
      [⟨some n1, some f1, some y1, some x1, some p1, some r1, some d1.feePaid,
          some d1.email⟩,
       ⟨some n2, some f2, some y2, some x2, some p2, some r2, some d2.feePaid,
          some d2.email⟩], some gf, some env.now⟩ 1).name = true := by
    rw [memberAt_one]; exact hn2
  intro m hm f hf
  simp only [List.mem_cons, List.mem_singleton, List.not_mem_nil, or_false] at hm hf
  rcases hm with rfl | rfl
  · rcases hf with rfl | rfl | rfl | rfl | rfl | rfl <;>
      refine ⟨_, rfl, part_infix_row _ _ _ ?_⟩ <;>
      simp [dashboardRowParts, memberAt_zero, orElse_some_nil]
  · rcases hf with rfl | rfl | rfl | rfl | rfl | rfl
    · refine ⟨_, rfl, part_infix_row _ _ _ ?_⟩
      simp [dashboardRowParts, memberAt_one, orElse_some_nil]
    all_goals
      refine ⟨_, rfl, second_infix_row _ _ _ hn2' ?_⟩
      simp [dashboardRowParts, memberAt_one, orElse_some_nil]

/-- C9 amended, at a concrete submission whose first name is `<script>`: the row of
the stored group contains `&lt;script&gt;`. -/
theorem dashboardRow_shows_fields_witness :
    "&lt;script&gt;".data <:+: dashboardRow asciiLib
      ⟨"id1".data,
        [ { name := some "<script>".data, form := some [], year := some [],
            experience := some [], past := some "no".data, reason := some [],
            feePaid := some true, email := some [] },
          { name := some "Bob".data, form := some [], year := some [],
            experience := some [], past := some "no".data, reason := some [],
            feePaid := some false, email := some [] } ], some true, some 7⟩ := by
  obtain ⟨⟨g, m1, m2, hs, hm, hall⟩, -, hscript⟩ :=
    dashboardRow_shows_fields asciiLib ⟨"id1".data, 7⟩ []
      [⟨"id1".data,
        [ { name := some "<script>".data, form := some [], year := some [],
            experience := some [], past := some "no".data, reason := some [],
            feePaid := some true, email := some [] },
          { name := some "Bob".data, form := some [], year := some [],
            experience := some [], past := some "no".data, reason := some [],
            feePaid := some false, email := some [] } ], some true, some 7⟩]
      (.obj [("group".data, .str "yes".data),
             ("p1".data, .obj [("name".data, .str "<script>".data),
                               ("fee".data, .str "yes".data)]),
             ("p2".data, .obj [("name".data, .str "Bob".data)])])
      "id1".data (by decide)
  have hg : g = ⟨"id1".data,
      [ { name := some "<script>".data, form := some [], year := some [],
          experience := some [], past := some "no".data, reason := some [],
          feePaid := some true, email := some [] },
        { name := some "Bob".data, form := some [], year := some [],
          experience := some [], past := some "no".data, reason := some [],
          feePaid := some false, email := some [] } ], some true, some 7⟩ := by
    simpa using hs.symm
  subst hg
  simp only [List.cons.injEq, and_true] at hm
  obtain ⟨rfl, rfl⟩ := hm
  obtain ⟨s, h1, h2⟩ := hall _ (List.mem_cons_self _ _) _ (List.mem_cons_self _ _)
  have hs' : s = "<script>".data := by
    simpa using h1.symm
  subst hs'
  rw [hscript] at h2
  exact h2

theorem quote_mem_escapeHtml (s : Str) (h : '"' ∈ s) : '"' ∈ escapeHtml s := by
  induction s with
  | nil => cases h
  | cons c cs ih =>
    rw [escapeHtml_cons]
    rcases List.mem_cons.1 h with rfl | h
    · simp
    · exact List.mem_append_right _ (ih h)

/-- The search box of the page: the value attribute holds the escaped query between
double quotes. -/
theorem value_attribute_infix (lib : Lib) (groups : List Group) (q : Str) :
    "value=\"".data ++ escapeHtml q ++ "\" />".data <:+: teacherDashboard lib groups q :=
  ⟨dashboardHead groups.length, dashboardTail (join ['\n'] (groups.map (dashboardRow lib))), rfl⟩

/-- C10, the code at a failing input: `escapeHtml` leaves every double quote of a
query in place, and for the query `" autofocus onfocus="alert(1)` the page holds an
input element whose value attribute is closed by the query and followed by attributes
that the query supplies. -/
theorem teacherDashboard_query_closes_attribute :
    (∀ s : Str, '"' ∈ s → '"' ∈ escapeHtml s) ∧
    escapeHtml "\" autofocus onfocus=\"alert(1)".data
      = "\" autofocus onfocus=\"alert(1)".data ∧
    ∀ (lib : Lib) (groups : List Group),
      "value=\"\" autofocus onfocus=\"alert(1)\" />".data <:+:
        teacherDashboard lib groups
          (trim (orElse (some "\" autofocus onfocus=\"alert(1)".data) [])) := by
  refine ⟨quote_mem_escapeHtml, by decide, fun lib groups => ?_⟩
  have h := value_attribute_infix lib groups
    (trim (orElse (some "\" autofocus onfocus=\"alert(1)".data) []))
  have e : "value=\"".data
      ++ escapeHtml (trim (orElse (some "\" autofocus onfocus=\"alert(1)".data) []))
      ++ "\" />".data = "value=\"\" autofocus onfocus=\"alert(1)\" />".data := by
    decide
  rw [e] at h
  exact h

end CompetitionForm
